import Mathlib

/-!
# GIPHY search client (`main.go`): shallow embedding and verified properties

Go strings are byte sequences, so a Go `string` is modelled as a list of bytes.  The program is a
single linear flow; its effects (log lines, writes to standard output, the HTTP request, the reads
of the response body, the fatal exits) are recorded in a trace of events, one constructor per
effect site of the source.

Library calls of the Go standard library (`net/url`, `strconv`, `strings`, `bufio`,
`encoding/json`, `net/http`) are modelled by the functions of the first sections, written after
the behaviour of the Go 1.2x implementations on a 64-bit platform.  The functions `SearchGif`,
`printResults` and `mainFlow` follow `main.go` statement by statement.
-/

namespace Giphy

/-! ## Bytes and strings -/

/-- One byte of a Go string. -/
abbrev Byte := Fin 256

/-- A Go `string`: an immutable sequence of bytes (not necessarily valid UTF-8). -/
abbrev GoString := List Byte

/-- The byte of an ASCII character literal such as `'a'` in Go source. -/
def ch (c : Char) : Byte := Fin.ofNat c.toNat

/-- The rune `utf8.RuneError` (U+FFFD). -/
def RuneError : Nat := 0xFFFD

/-- Model of `utf8.EncodeRune`: the UTF-8 bytes of a rune; surrogates and values above
U+10FFFF are written as U+FFFD. -/
def EncodeRune (r : Nat) : GoString :=
  if r < 0x80 then [Fin.ofNat r]
  else if r < 0x800 then [Fin.ofNat (0xC0 + r / 0x40), Fin.ofNat (0x80 + r % 0x40)]
  else if 0x10FFFF < r ∨ (0xD800 ≤ r ∧ r ≤ 0xDFFF) then [0xEF, 0xBF, 0xBD]
  else if r < 0x10000 then
    [Fin.ofNat (0xE0 + r / 0x1000), Fin.ofNat (0x80 + r / 0x40 % 0x40), Fin.ofNat (0x80 + r % 0x40)]
  else
    [Fin.ofNat (0xF0 + r / 0x40000), Fin.ofNat (0x80 + r / 0x1000 % 0x40),
     Fin.ofNat (0x80 + r / 0x40 % 0x40), Fin.ofNat (0x80 + r % 0x40)]

/-- The bytes of a Go string literal (Go source files are UTF-8). -/
def utf8 (s : String) : GoString := s.data.flatMap (fun c => EncodeRune c.toNat)

/-- Go string comparison `a < b`: lexicographic on bytes. -/
def strLess : GoString → GoString → Bool
  | [], [] => false
  | [], _ :: _ => true
  | _ :: _, [] => false
  | a :: as, b :: bs => if a < b then true else if b < a then false else strLess as bs

/-! ## `strconv.Itoa` -/

/-- Decimal digits of `n`, least significant first; `fuel` bounds the number of digits. -/
def digitsRev : Nat → Nat → GoString
  | 0, _ => []
  | fuel + 1, n =>
    if n < 10 then [Fin.ofNat (48 + n)]
    else Fin.ofNat (48 + n % 10) :: digitsRev fuel (n / 10)

/-- Decimal rendering of a natural number (`"0"` for zero, no leading zeros otherwise). -/
def formatNat (n : Nat) : GoString := (digitsRev (n + 1) n).reverse

/-- Model of `strconv.Itoa`: decimal rendering with a leading `-` for negative values. -/
def Itoa (i : Int) : GoString :=
  if i < 0 then ch '-' :: formatNat i.natAbs else formatNat i.natAbs

/-! ## `net/url`: query escaping, `Values`, `ParseQuery` -/

/-- Model of `shouldEscape(c, encodeQueryComponent)`: only the unreserved characters of RFC 3986
(letters, digits, `-`, `_`, `.`, `~`) are left alone. -/
def shouldEscape (c : Byte) : Bool :=
  if (ch 'a' ≤ c ∧ c ≤ ch 'z') ∨ (ch 'A' ≤ c ∧ c ≤ ch 'Z') ∨ (ch '0' ≤ c ∧ c ≤ ch '9') then false
  else if c = ch '-' ∨ c = ch '_' ∨ c = ch '.' ∨ c = ch '~' then false
  else true

/-- The table `upperhex` of `net/url`. -/
def upperhex : GoString := utf8 "0123456789ABCDEF"

/-- The byte `upperhex[n]`. -/
def hexDigit (n : Nat) : Byte := upperhex.getD n 0

/-- What `escape(s, encodeQueryComponent)` writes for one byte: the byte itself when it needs no
escaping, `+` for a space, `%XX` otherwise. -/
def escapeByte (c : Byte) : GoString :=
  if shouldEscape c then
    if c = ch ' ' then [ch '+']
    else [ch '%', hexDigit (c.val / 16), hexDigit (c.val % 16)]
  else [c]

/-- Model of `url.QueryEscape`. -/
def QueryEscape (s : GoString) : GoString := s.flatMap escapeByte

/-- Model of `ishex` of `net/url`. -/
def ishex (c : Byte) : Bool :=
  (ch '0' ≤ c ∧ c ≤ ch '9') ∨ (ch 'a' ≤ c ∧ c ≤ ch 'f') ∨ (ch 'A' ≤ c ∧ c ≤ ch 'F')

/-- Model of `unhex` of `net/url`. -/
def unhex (c : Byte) : Nat :=
  if ch '0' ≤ c ∧ c ≤ ch '9' then c.val - 48
  else if ch 'a' ≤ c ∧ c ≤ ch 'f' then c.val - 97 + 10
  else if ch 'A' ≤ c ∧ c ≤ ch 'F' then c.val - 65 + 10
  else 0

/-- Model of `url.QueryUnescape`: `%XX` becomes the byte `XX`, `+` becomes a space; a `%` that is
not followed by two hexadecimal digits is an error (`none`). -/
def QueryUnescape : GoString → Option GoString
  | [] => some []
  | c :: rest =>
    if c = ch '%' then
      match rest with
      | h :: l :: rest2 =>
        if ishex h ∧ ishex l then
          (QueryUnescape rest2).map (fun t => Fin.ofNat (unhex h * 16 + unhex l) :: t)
        else none
      | _ => none
    else if c = ch '+' then (QueryUnescape rest).map (fun t => ch ' ' :: t)
    else (QueryUnescape rest).map (fun t => c :: t)

/-- Model of `url.Values` (a `map[string][]string`): each key occurs once, with its values in
the order they were added. -/
abbrev Values := List (GoString × List GoString)

/-- Model of `Values.Add`: appends the value to the values of the key. -/
def Values.Add : Values → GoString → GoString → Values
  | [], key, value => [(key, [value])]
  | (k, vs) :: m, key, value =>
    if k = key then (k, vs ++ [value]) :: m else (k, vs) :: Values.Add m key value

/-- Insertion of an entry into a list of entries sorted by key. -/
def insertByKey (e : GoString × List GoString) : Values → Values
  | [] => [e]
  | f :: m => if strLess f.1 e.1 then f :: insertByKey e m else e :: f :: m

/-- The entries in increasing order of their keys (`slices.Sort(keys)` in `Values.Encode`). -/
def sortByKey : Values → Values
  | [] => []
  | e :: m => insertByKey e (sortByKey m)

/-- One iteration of the inner loop of `Values.Encode`: an `&` unless the buffer is empty, then
the escaped key, `=`, the escaped value. -/
def writePair (keyEscaped : GoString) (buf : GoString) (v : GoString) : GoString :=
  (if buf ≠ [] then buf ++ [ch '&'] else buf) ++ keyEscaped ++ [ch '='] ++ QueryEscape v

/-- Model of `Values.Encode`: the pairs `key=value`, escaped, joined by `&`, sorted by key. -/
def Values.Encode (v : Values) : GoString :=
  (sortByKey v).foldl (fun buf e => e.2.foldl (writePair (QueryEscape e.1)) buf) []

/-- Model of `strings.Cut` with a one-byte separator: the text before the first occurrence of
the separator and the text after it (`none` when the separator does not occur). -/
def cut (sep : Byte) : GoString → GoString × Option GoString
  | [] => ([], none)
  | c :: s =>
    if c = sep then ([], some s)
    else ((c :: (cut sep s).1), (cut sep s).2)

/-- The pieces of a string between the occurrences of a separator byte. -/
def splitBy (sep : Byte) : GoString → List GoString
  | [] => [[]]
  | c :: s =>
    if c = sep then [] :: splitBy sep s
    else match splitBy sep s with
      | [] => [[c]]
      | p :: ps => (c :: p) :: ps

/-- One `key=value` piece of a query string, decoded as in the loop body of `parseQuery`:
`none` for a piece the loop skips (empty, containing `;`, or with a malformed escape). -/
def parsePair (piece : GoString) : Option (GoString × GoString) :=
  if ch ';' ∈ piece then none
  else if piece = [] then none
  else
    match QueryUnescape (cut (ch '=') piece).1, QueryUnescape ((cut (ch '=') piece).2.getD []) with
    | some k, some v => some (k, v)
    | _, _ => none

/-- Model of `url.ParseQuery`, as the list of decoded `(key, value)` pairs in their order of
appearance (pieces in error are skipped, as in Go, where the other pairs are still returned). -/
def ParseQuery (query : GoString) : List (GoString × GoString) :=
  (splitBy (ch '&') query).filterMap parsePair

/-- The values of parameter `name` in a query string: `ParseQuery(query)[name]`. -/
def queryValues (name : GoString) (query : GoString) : List GoString :=
  ((ParseQuery query).filter (fun kv => kv.1 = name)).map (fun kv => kv.2)

/-- The query part of a URL as `url.Parse` finds it: the fragment (after the first `#`) is cut
off first, the query is what follows the first `?` of the rest. -/
def rawQuery (rawURL : GoString) : GoString :=
  ((cut (ch '?') (cut (ch '#') rawURL).1).2).getD []

/-! ## The request URL of `SearchGif` (lines 34-43) -/

/-- The constant `baseURL` of `SearchGif`. -/
def baseURL : GoString := utf8 "https://api.giphy.com/v1/gifs/search"

/-- The `params` of `SearchGif`: three `Add` calls on an empty `url.Values`. -/
def searchParams (apiKey query : GoString) (limit : Int) : Values :=
  ((Values.Add [] (utf8 "api_key") apiKey).Add (utf8 "q") query).Add (utf8 "limit") (Itoa limit)

/-- The `fullURL` of `SearchGif`: `fmt.Sprintf("%s?%s", baseURL, params.Encode())`. -/
def requestURL (apiKey query : GoString) (limit : Int) : GoString :=
  baseURL ++ utf8 "?" ++ (searchParams apiKey query limit).Encode

/-! ## `strconv.Atoi`, `bufio.Reader.ReadString`, `utf8.DecodeRune`, `strings.TrimSpace` -/

/-- Decimal digit test. -/
def isDigit (c : Byte) : Bool := ch '0' ≤ c ∧ c ≤ ch '9'

/-- Value of a string of decimal digits (`n = n*10 + int(ch - '0')`). -/
def digitsValue (ds : GoString) : Nat := ds.foldl (fun n c => n * 10 + (c.val - 48)) 0

/-- Model of `strconv.Atoi` on a 64-bit platform: an optional sign `+` or `-`, then one or more
decimal digits, with a value in the range of `int`.  The result is `none` whenever `Atoi` returns
a non-nil error (a syntax error or a range error). -/
def Atoi (s : GoString) : Option Int :=
  let neg : Bool := s.head? = some (ch '-')
  let ds : GoString := if s.head? = some (ch '-') ∨ s.head? = some (ch '+') then s.tail else s
  if ds = [] then none
  else if ds.all isDigit = false then none
  else if neg then
    (if 2 ^ 63 < digitsValue ds then none else some (-(digitsValue ds : Int)))
  else
    (if 2 ^ 63 ≤ digitsValue ds then none else some (digitsValue ds : Int))

/-- Model of `reader.ReadString(delim)` on the bytes still to be read: the bytes up to and
including the first delimiter (all the remaining bytes when there is none, the error being
discarded by the caller), and the bytes left for the next read. -/
def ReadString (delim : Byte) : GoString → GoString × GoString
  | [] => ([], [])
  | c :: s =>
    if c = delim then ([c], s)
    else (c :: (ReadString delim s).1, (ReadString delim s).2)

/-- The tables `first` and `acceptRanges` of `unicode/utf8` for a lead byte: the length of the
sequence and the accepted range of the second byte; length `0` for a byte that starts no
multi-byte sequence. -/
def leadInfo (p0 : Byte) : Nat × Nat × Nat :=
  if 0xC2 ≤ p0.val ∧ p0.val ≤ 0xDF then (2, 0x80, 0xBF)
  else if p0.val = 0xE0 then (3, 0xA0, 0xBF)
  else if p0.val = 0xED then (3, 0x80, 0x9F)
  else if 0xE1 ≤ p0.val ∧ p0.val ≤ 0xEF then (3, 0x80, 0xBF)
  else if p0.val = 0xF0 then (4, 0x90, 0xBF)
  else if 0xF1 ≤ p0.val ∧ p0.val ≤ 0xF3 then (4, 0x80, 0xBF)
  else if p0.val = 0xF4 then (4, 0x80, 0x8F)
  else (0, 0, 0)

/-- Continuation byte test (`locb <= b && b <= hicb`). -/
def isCont (b : Byte) : Bool := 0x80 ≤ b.val ∧ b.val ≤ 0xBF

/-- Model of `utf8.DecodeRune`: the first rune of the bytes and its width; `(RuneError, 1)` for
an invalid or truncated encoding, `(RuneError, 0)` for no bytes. -/
def DecodeRune : GoString → Nat × Nat
  | [] => (RuneError, 0)
  | p0 :: t =>
    if p0.val < 0x80 then (p0.val, 1)
    else if (leadInfo p0).1 = 0 then (RuneError, 1)
    else
      match t with
      | [] => (RuneError, 1)
      | b1 :: t1 =>
        if b1.val < (leadInfo p0).2.1 ∨ (leadInfo p0).2.2 < b1.val then (RuneError, 1)
        else if (leadInfo p0).1 ≤ 2 then (p0.val % 32 * 64 + b1.val % 64, 2)
        else
          match t1 with
          | [] => (RuneError, 1)
          | b2 :: t2 =>
            if isCont b2 = false then (RuneError, 1)
            else if (leadInfo p0).1 ≤ 3 then
              (p0.val % 16 * 4096 + b1.val % 64 * 64 + b2.val % 64, 3)
            else
              match t2 with
              | [] => (RuneError, 1)
              | b3 :: _ =>
                if isCont b3 = false then (RuneError, 1)
                else (p0.val % 8 * 262144 + b1.val % 64 * 4096 + b2.val % 64 * 64 + b3.val % 64, 4)

/-- Model of `utf8.RuneStart`: the byte is not a continuation byte. -/
def RuneStart (b : Byte) : Bool := b.val / 64 ≠ 2

/-- Model of `utf8.DecodeLastRune`, on the REVERSED bytes (last byte first): the last rune and
its width.  Go looks back over at most three more bytes for the start of the rune and decodes
from there; the rune counts only when it ends exactly at the end of the string. -/
def DecodeLastRuneRev : GoString → Nat × Nat
  | [] => (RuneError, 0)
  | b0 :: before =>
    if b0.val < 0x80 then (b0.val, 1)
    else
      match (before.take 3).findIdx? RuneStart with
      | none => (RuneError, 1)
      | some k =>
        if (DecodeRune ((b0 :: before.take (k + 1)).reverse)).2 = k + 2 then
          DecodeRune ((b0 :: before.take (k + 1)).reverse)
        else (RuneError, 1)

/-- Model of `unicode.IsSpace`. -/
def IsSpace (r : Nat) : Bool :=
  (9 ≤ r ∧ r ≤ 13) ∨ r = 0x20 ∨ r = 0x85 ∨ r = 0xA0 ∨ r = 0x1680 ∨ (0x2000 ≤ r ∧ r ≤ 0x200A) ∨
  r = 0x2028 ∨ r = 0x2029 ∨ r = 0x202F ∨ r = 0x205F ∨ r = 0x3000

/-- Model of `strings.TrimLeftFunc(s, unicode.IsSpace)`: leading white-space runes are removed;
`fuel` bounds the number of runes removed. -/
def trimLeft : Nat → GoString → GoString
  | 0, s => s
  | fuel + 1, s =>
    if s = [] then s
    else if IsSpace (DecodeRune s).1 then trimLeft fuel (s.drop (DecodeRune s).2)
    else s

/-- Model of `strings.TrimRightFunc(s, unicode.IsSpace)` on the reversed bytes. -/
def trimRightRev : Nat → GoString → GoString
  | 0, s => s
  | fuel + 1, s =>
    if s = [] then s
    else if IsSpace (DecodeLastRuneRev s).1 then trimRightRev fuel (s.drop (DecodeLastRuneRev s).2)
    else s

/-- Model of `strings.TrimSpace`: leading and trailing Unicode white space removed. -/
def TrimSpace (s : GoString) : GoString :=
  (trimRightRev s.length (trimLeft s.length s).reverse).reverse

/-! ## The response types (lines 19-29) -/

/-- The struct `GiphyData`: the two fields read from an item of the response. -/
structure GiphyData where
  /-- Field `Title`, JSON name `title`. -/
  Title : GoString
  /-- Field `URL`, JSON name `url`. -/
  URL : GoString
deriving DecidableEq, Repr

/-- The struct `GiphyResponse`: `Data` is a slice of POINTERS, so an entry may be `nil`
(`none`). -/
structure GiphyResponse where
  /-- Field `Data`, JSON name `data`. -/
  Data : List (Option GiphyData)
deriving DecidableEq, Repr

/-! ## `encoding/json`: `json.Unmarshal` into a `GiphyResponse` -/

/-- A JSON value as the decoder sees it; numbers carry no payload because no field of the
target type can hold one. -/
inductive JValue where
  | null
  | bool (b : Bool)
  | number
  | str (s : GoString)
  | arr (items : List JValue)
  | obj (members : List (GoString × JValue))

/-- The two ways `json.Unmarshal` fails here: a `SyntaxError` (the text is not one JSON value)
or an `UnmarshalTypeError` (a value of a JSON type the Go field cannot hold). -/
inductive JsonError where
  | invalidSyntax
  | typeMismatch
deriving DecidableEq, Repr

/-- JSON white space (`isSpace` of the scanner). -/
def jsonSpace (c : Byte) : Bool := c = ch ' ' ∨ c = ch '\t' ∨ c = ch '\r' ∨ c = ch '\n'

/-- Skips JSON white space. -/
def skipSpace : GoString → GoString
  | [] => []
  | c :: s => if jsonSpace c then skipSpace s else c :: s

/-- Skips decimal digits. -/
def skipDigits : GoString → GoString
  | [] => []
  | c :: s => if isDigit c then skipDigits s else c :: s

/-- The exponent part of a number: `e` or `E`, an optional sign, at least one digit. -/
def scanExponent (s : GoString) : Option GoString :=
  match s with
  | [] => some []
  | c :: t =>
    if c = ch 'e' ∨ c = ch 'E' then
      match (if t.head? = some (ch '+') ∨ t.head? = some (ch '-') then t.tail else t) with
      | [] => none
      | d :: t2 => if isDigit d then some (skipDigits t2) else none
    else some s

/-- The fraction part of a number: `.` and at least one digit; then the exponent. -/
def scanFraction (s : GoString) : Option GoString :=
  match s with
  | [] => some []
  | c :: t =>
    if c = ch '.' then
      match t with
      | [] => none
      | d :: t2 => if isDigit d then scanExponent (skipDigits t2) else none
    else scanExponent s

/-- A JSON number at the head of the text: the text that follows it, `none` when the head is
not a number. -/
def scanNumber (s : GoString) : Option GoString :=
  match (if s.head? = some (ch '-') then s.tail else s) with
  | [] => none
  | c :: t =>
    if c = ch '0' then scanFraction t
    else if ch '1' ≤ c ∧ c ≤ ch '9' then scanFraction (skipDigits t)
    else none

/-- The inside of a string literal, after the opening quote: the raw bytes up to the closing
quote and the text after it.  A control byte, an unknown escape or a missing closing quote is a
syntax error. -/
def scanString : GoString → Option (GoString × GoString)
  | [] => none
  | c :: s =>
    if c = ch '\x22' then some ([], s)
    else if c = ch '\x5c' then
      match s with
      | [] => none
      | e :: s2 =>
        if e = ch 'b' ∨ e = ch 'f' ∨ e = ch 'n' ∨ e = ch 'r' ∨ e = ch 't' ∨ e = ch '\x5c' ∨
            e = ch '/' ∨ e = ch '\x22' then
          (scanString s2).map (fun r => (c :: e :: r.1, r.2))
        else if e = ch 'u' then
          match s2 with
          | h1 :: h2 :: h3 :: h4 :: s3 =>
            if ishex h1 ∧ ishex h2 ∧ ishex h3 ∧ ishex h4 then
              (scanString s3).map (fun r => (c :: e :: h1 :: h2 :: h3 :: h4 :: r.1, r.2))
            else none
          | _ => none
        else none
    else if c.val < 0x20 then none
    else (scanString s).map (fun r => (c :: r.1, r.2))

/-- Model of `getu4`: the code unit of a `\uXXXX` escape at the head of the text. -/
def getu4 (s : GoString) : Option Nat :=
  match s with
  | b :: u :: h1 :: h2 :: h3 :: h4 :: _ =>
    if b = ch '\x5c' ∧ u = ch 'u' ∧ ishex h1 ∧ ishex h2 ∧ ishex h3 ∧ ishex h4 then
      some (((unhex h1 * 16 + unhex h2) * 16 + unhex h3) * 16 + unhex h4)
    else none
  | _ => none

/-- Model of `utf16.DecodeRune`: the code point of a surrogate pair, U+FFFD for anything else. -/
def decodeSurrogates (r1 : Nat) (r2 : Option Nat) : Nat :=
  match r2 with
  | some r2 =>
    if 0xD800 ≤ r1 ∧ r1 < 0xDC00 ∧ 0xDC00 ≤ r2 ∧ r2 < 0xE000 then
      (r1 - 0xD800) * 1024 + (r2 - 0xDC00) + 0x10000
    else RuneError
  | none => RuneError

/-- Model of the decoding loop of `unquoteBytes` on the raw inside of a string literal that the
scanner accepted: escapes are replaced, invalid UTF-8 is coerced to U+FFFD, everything else is
copied. -/
def unquote : Nat → GoString → GoString
  | 0, _ => []
  | _ + 1, [] => []
  | fuel + 1, c :: s =>
    if c = ch '\x5c' then
      match s with
      | [] => []
      | e :: s2 =>
        if e = ch '\x22' ∨ e = ch '\x5c' ∨ e = ch '/' ∨ e = ch '\x27' then e :: unquote fuel s2
        else if e = ch 'b' then ch '\x08' :: unquote fuel s2
        else if e = ch 'f' then ch '\x0c' :: unquote fuel s2
        else if e = ch 'n' then ch '\n' :: unquote fuel s2
        else if e = ch 'r' then ch '\r' :: unquote fuel s2
        else if e = ch 't' then ch '\t' :: unquote fuel s2
        else if e = ch 'u' then
          match getu4 (c :: s) with
          | none => []
          | some rr =>
            if 0xD800 ≤ rr ∧ rr < 0xE000 then
              if decodeSurrogates rr (getu4 (s.drop 5)) ≠ RuneError then
                EncodeRune (decodeSurrogates rr (getu4 (s.drop 5))) ++ unquote fuel (s.drop 11)
              else EncodeRune RuneError ++ unquote fuel (s.drop 5)
            else EncodeRune rr ++ unquote fuel (s.drop 5)
        else []
    else if c.val < 0x80 then c :: unquote fuel s
    else EncodeRune (DecodeRune (c :: s)).1 ++ unquote fuel ((c :: s).drop (DecodeRune (c :: s)).2)

/-- The limit `maxNestingDepth` of the scanner. -/
def maxNestingDepth : Nat := 10000

mutual
/-- One JSON value at the head of the text (after optional white space), with the text that
follows it; `none` is a syntax error.  `depth` counts the arrays and objects already open. -/
def parseValue : Nat → Nat → GoString → Option (JValue × GoString)
  | 0, _, _ => none
  | fuel + 1, depth, s =>
    match skipSpace s with
    | [] => none
    | c :: t =>
      if c = ch '\x7b' then
        if maxNestingDepth ≤ depth then none
        else
          match skipSpace t with
          | [] => none
          | c2 :: t2 =>
            if c2 = ch '\x7d' then some (JValue.obj [], t2)
            else (parseMembers fuel (depth + 1) (c2 :: t2)).map (fun r => (JValue.obj r.1, r.2))
      else if c = ch '[' then
        if maxNestingDepth ≤ depth then none
        else
          match skipSpace t with
          | [] => none
          | c2 :: t2 =>
            if c2 = ch ']' then some (JValue.arr [], t2)
            else (parseElements fuel (depth + 1) (c2 :: t2)).map (fun r => (JValue.arr r.1, r.2))
      else if c = ch '\x22' then
        (scanString t).map (fun r => (JValue.str (unquote r.1.length r.1), r.2))
      else if c = ch '-' ∨ isDigit c then
        (scanNumber (c :: t)).map (fun r => (JValue.number, r))
      else if (c :: t).take 4 = utf8 "true" then some (JValue.bool true, t.drop 3)
      else if (c :: t).take 5 = utf8 "false" then some (JValue.bool false, t.drop 4)
      else if (c :: t).take 4 = utf8 "null" then some (JValue.null, t.drop 3)
      else none
/-- The elements of an array after `[`: values separated by `,`, up to the closing `]`. -/
def parseElements : Nat → Nat → GoString → Option (List JValue × GoString)
  | 0, _, _ => none
  | fuel + 1, depth, s =>
    match parseValue fuel depth s with
    | none => none
    | some (v, rest) =>
      match skipSpace rest with
      | [] => none
      | c :: t =>
        if c = ch ']' then some ([v], t)
        else if c = ch ',' then (parseElements fuel depth t).map (fun r => (v :: r.1, r.2))
        else none
/-- The members of an object after `{`: `"key": value` pairs separated by `,`, up to the
closing `}`. -/
def parseMembers : Nat → Nat → GoString → Option (List (GoString × JValue) × GoString)
  | 0, _, _ => none
  | fuel + 1, depth, s =>
    match skipSpace s with
    | [] => none
    | q :: t =>
      if q = ch '\x22' then
        match scanString t with
        | none => none
        | some (rawKey, afterKey) =>
          match skipSpace afterKey with
          | [] => none
          | colon :: t2 =>
            if colon = ch ':' then
              match parseValue fuel depth t2 with
              | none => none
              | some (v, rest) =>
                match skipSpace rest with
                | [] => none
                | c :: t3 =>
                  if c = ch '\x7d' then some ([(unquote rawKey.length rawKey, v)], t3)
                  else if c = ch ',' then
                    (parseMembers fuel depth t3).map
                      (fun r => ((unquote rawKey.length rawKey, v) :: r.1, r.2))
                  else none
            else none
      else none
end

/-- Model of `checkValid` together with the reading of the value: the text must be exactly one
JSON value, with optional white space around it. -/
def parseJSON (data : GoString) : Option JValue :=
  match parseValue (data.length + 1) 0 data with
  | none => none
  | some (v, rest) => if skipSpace rest = [] then some v else none

/-- ASCII upper-casing of a byte. -/
def upperByte (c : Byte) : Byte := if ch 'a' ≤ c ∧ c ≤ ch 'z' then Fin.ofNat (c.val - 32) else c

/-- Field lookup of the decoder for the JSON names `data`, `title` and `url`: an object key
selects the field when it is the name itself or equals it up to ASCII case. -/
def keyMatches (name key : GoString) : Bool := key.map upperByte = name.map upperByte

/-- Storing a JSON value into a Go `string` field: a string is stored, `null` leaves the field
as it is, every other value is a type error. -/
def storeString (v : JValue) (cur : GoString) : GoString × Bool :=
  match v with
  | JValue.str s => (s, false)
  | JValue.null => (cur, false)
  | _ => (cur, true)

/-- Storing the members of a JSON object into a `GiphyData`, in their order: unknown keys are
skipped.  The flag tells whether a type error was recorded. -/
def storeFields (members : List (GoString × JValue)) (cur : GiphyData) : GiphyData × Bool :=
  members.foldl
    (fun acc m =>
      if keyMatches (utf8 "title") m.1 then
        ({ acc.1 with Title := (storeString m.2 acc.1.Title).1 },
          acc.2 || (storeString m.2 acc.1.Title).2)
      else if keyMatches (utf8 "url") m.1 then
        ({ acc.1 with URL := (storeString m.2 acc.1.URL).1 },
          acc.2 || (storeString m.2 acc.1.URL).2)
      else acc)
    (cur, false)

/-- Storing a JSON value into an element of type `*GiphyData`: `null` stores a nil pointer, an
object is stored into the struct pointed to (allocated when the pointer is nil), every other
value is a type error. -/
def storeItem (v : JValue) (cur : Option GiphyData) : Option GiphyData × Bool :=
  match v with
  | JValue.null => (none, false)
  | JValue.obj members =>
    (some (storeFields members (cur.getD ⟨[], []⟩)).1, (storeFields members (cur.getD ⟨[], []⟩)).2)
  | _ => (some (cur.getD ⟨[], []⟩), true)

/-- Storing the elements of a JSON array into the backing array of the slice, element by
element: the stored elements, what is left of the backing array, and the error flag. -/
def storeItems : List JValue → List (Option GiphyData) →
    List (Option GiphyData) × List (Option GiphyData) × Bool
  | [], backing => ([], backing, false)
  | v :: vs, backing =>
    ((storeItem v (backing.head?.getD none)).1 :: (storeItems vs backing.tail).1,
      (storeItems vs backing.tail).2.1,
      (storeItem v (backing.head?.getD none)).2 || (storeItems vs backing.tail).2.2)

/-- The slice `Data` while decoding: its elements, and the elements of its backing array beyond
its length (which a later growth of the slice makes visible again). -/
structure SliceState where
  /-- The elements of the slice. -/
  elems : List (Option GiphyData)
  /-- The backing array between length and capacity. -/
  spare : List (Option GiphyData)

/-- Storing a JSON value into the field `Data []*GiphyData`: `null` stores a nil slice, an empty
array a fresh empty slice, an array its elements (reusing the elements already there), every
other value is a type error. -/
def storeSlice (v : JValue) (cur : SliceState) : SliceState × Bool :=
  match v with
  | JValue.null => (⟨[], []⟩, false)
  | JValue.arr [] => (⟨[], []⟩, false)
  | JValue.arr items =>
    (⟨(storeItems items (cur.elems ++ cur.spare)).1, (storeItems items (cur.elems ++ cur.spare)).2.1⟩,
      (storeItems items (cur.elems ++ cur.spare)).2.2)
  | _ => (cur, true)

/-- Storing the top-level JSON value into the `GiphyResponse`: `null` changes nothing, an object
stores its `data` members in their order, every other value is a type error. -/
def storeResponse (v : JValue) : SliceState × Bool :=
  match v with
  | JValue.null => (⟨[], []⟩, false)
  | JValue.obj members =>
    members.foldl
      (fun acc m =>
        if keyMatches (utf8 "data") m.1 then ((storeSlice m.2 acc.1).1, acc.2 || (storeSlice m.2 acc.1).2)
        else acc)
      (⟨[], []⟩, false)
  | _ => (⟨[], []⟩, true)

/-- Model of `json.Unmarshal(body, &apiResponse)` for a zero `apiResponse`. -/
def Unmarshal (body : GoString) : Except JsonError GiphyResponse :=
  match parseJSON body with
  | none => Except.error JsonError.invalidSyntax
  | some v =>
    if (storeResponse v).2 then Except.error JsonError.typeMismatch
    else Except.ok ⟨(storeResponse v).1.elems⟩

/-! ## `SearchGif` (lines 32-83) -/

/-- What `client.Do` hands back when the transport succeeded: the status code, the status line
text (`resp.Status`, e.g. `404 Not Found`) and the outcome of reading the body to its end. -/
structure Response where
  /-- Field `resp.StatusCode`. -/
  StatusCode : Int
  /-- Field `resp.Status`. -/
  Status : GoString
  /-- Outcome of `io.ReadAll(resp.Body)`: the bytes, or the text of the read error. -/
  Body : Except GoString GoString

/-- The errors `SearchGif` returns, one constructor per `return nil, fmt.Errorf(...)`. -/
inductive SearchError where
  /-- Line 48: `http.NewRequest` failed. -/
  | request
  /-- Line 55: the transport failed; the cause is the text of the wrapped error. -/
  | network (cause : GoString)
  /-- Line 63: status 401 or 403, reported as an invalid API key. -/
  | invalidKey (statusCode : Int)
  /-- Line 65: every other status different from 200. -/
  | server (statusCode : Int) (status : GoString)
  /-- Line 71: reading the body failed. -/
  | read (cause : GoString)
  /-- Line 78: `json.Unmarshal` failed. -/
  | decode (cause : JsonError)
deriving DecidableEq, Repr

/-- The text of the error of line 63:
`fmt.Errorf("помилка сервера (%d): невірний API-ключ. Перевірте ваш .env файл", code)`. -/
def invalidKeyMessage (statusCode : Int) : GoString :=
  utf8 "помилка сервера (" ++ Itoa statusCode ++ utf8 "): невірний API-ключ. Перевірте ваш .env файл"

/-- The text of the error of line 65: `fmt.Errorf("помилка сервера (%d): %s", code, status)`. -/
def serverMessage (statusCode : Int) (status : GoString) : GoString :=
  utf8 "помилка сервера (" ++ Itoa statusCode ++ utf8 "): " ++ status

/-- The effects of one run, one constructor per effect site of `main.go`. -/
inductive Event where
  /-- Line 87: the start-up log line. -/
  | logStart
  /-- Line 96: the warning logged when `godotenv.Load` fails. -/
  | logDotenvMissing
  /-- Line 104: `log.Fatal`, the API key is not set. -/
  | fatalNoKey
  /-- Line 112: the prompt for the keyword. -/
  | promptKeyword
  /-- Line 117: `log.Fatal`, the keyword is empty. -/
  | fatalEmptyKeyword
  /-- Line 120: the prompt for the number of results. -/
  | promptCount
  /-- Line 126: `log.Fatalf`, the number of results is not a positive number; carries the text
  echoed by `%s`. -/
  | fatalBadCount (limitStr : GoString)
  /-- Line 131: the log line before the search. -/
  | logSearching
  /-- Line 132: the call `SearchGif(apiKey, query, limit)`. -/
  | callSearchGif (apiKey query : GoString) (limit : Int)
  /-- Line 52: `client.Do(req)`, the GET request for the URL. -/
  | httpGet (url : GoString)
  /-- Line 69: `io.ReadAll(resp.Body)`. -/
  | readBody
  /-- Line 57: the deferred `resp.Body.Close()`. -/
  | closeBody
  /-- Line 134: `log.Fatalf`, the search failed. -/
  | fatalSearch (err : SearchError)
  /-- Line 140: the nothing-found line. -/
  | printNothingFound (query : GoString)
  /-- Line 144: the header line with the query and the count. -/
  | printHeader (query : GoString) (count : Nat)
  /-- Line 148: first line of an item block, with the number and the title. -/
  | printTitle (number : Nat) (title : GoString)
  /-- Line 149: second line of an item block, with the link. -/
  | printLink (url : GoString)
  /-- Line 152: the closing line. -/
  | printClosing
deriving DecidableEq, Repr

/-- The bytes an event writes to standard output (log lines and fatal messages go to standard
error and write nothing here). -/
def Event.stdout : Event → GoString
  | Event.promptKeyword => utf8 "Введіть ключове слово (наприклад, 'теніс'): "
  | Event.promptCount => utf8 "Введіть кількість результатів: "
  | Event.printNothingFound query =>
    utf8 "\nНа жаль, за запитом '" ++ query ++ utf8 "' нічого не знайдено.\n"
  | Event.printHeader query count =>
    utf8 "\n--- Результати пошуку для '" ++ query ++ utf8 "' (" ++ Itoa count ++ utf8 " шт.) ---\n"
  | Event.printTitle number title => utf8 "\n" ++ Itoa number ++ utf8 ". Назва: " ++ title ++ utf8 "\n"
  | Event.printLink url => utf8 "   Посилання: " ++ url ++ utf8 "\n"
  | Event.printClosing => utf8 "\n--- Кінець результатів ---" ++ utf8 "\n"
  | _ => []

/-- Model of the check of `url.Parse` that can reject the URL of `SearchGif`: an ASCII control
byte anywhere in the URL (scheme, host and path are constant and well formed). -/
def stringContainsCTLByte (s : GoString) : Bool := s.any (fun b => b.val < 0x20 ∨ b.val = 0x7f)

/-- The function `SearchGif`.  `doRequest` is the outcome of `client.Do` for a GET of the given
URL: the text of a transport error, or the response.  The result is the trace of effects and the
returned pair `(*GiphyResponse, error)`. -/
def SearchGif (doRequest : GoString → Except GoString Response) (apiKey query : GoString)
    (limit : Int) : List Event × Except SearchError GiphyResponse :=
  let fullURL := requestURL apiKey query limit
  if stringContainsCTLByte fullURL then ([], Except.error SearchError.request)
  else
    match doRequest fullURL with
    | Except.error cause => ([Event.httpGet fullURL], Except.error (SearchError.network cause))
    | Except.ok resp =>
      if resp.StatusCode ≠ 200 then
        if resp.StatusCode = 401 ∨ resp.StatusCode = 403 then
          ([Event.httpGet fullURL, Event.closeBody],
            Except.error (SearchError.invalidKey resp.StatusCode))
        else
          ([Event.httpGet fullURL, Event.closeBody],
            Except.error (SearchError.server resp.StatusCode resp.Status))
      else
        match resp.Body with
        | Except.error cause =>
          ([Event.httpGet fullURL, Event.readBody, Event.closeBody],
            Except.error (SearchError.read cause))
        | Except.ok body =>
          match Unmarshal body with
          | Except.error e =>
            ([Event.httpGet fullURL, Event.readBody, Event.closeBody],
              Except.error (SearchError.decode e))
          | Except.ok apiResponse =>
            ([Event.httpGet fullURL, Event.readBody, Event.closeBody], Except.ok apiResponse)

/-! ## `main` (lines 86-153) -/

/-- What a run of the program depends on. -/
structure World where
  /-- Whether `godotenv.Load()` returned no error. -/
  dotenvLoaded : Bool
  /-- The value `os.Getenv("GIPHY_API_KEY")` after the load. -/
  apiKey : GoString
  /-- The bytes available on standard input. -/
  stdin : GoString
  /-- The outcome of `client.Do` for a GET of a URL. -/
  doRequest : GoString → Except GoString Response

/-- The loop of lines 146-151 from index `i` on: a block of two lines for every entry that is
not nil, numbered `i+1`. -/
def printItems : Nat → List (Option GiphyData) → List Event
  | _, [] => []
  | i, gif :: rest =>
    (match gif with
      | some g => [Event.printTitle (i + 1) g.Title, Event.printLink g.URL]
      | none => []) ++ printItems (i + 1) rest

/-- Lines 139-152: the output for a decoded response. -/
def printResults (query : GoString) (data : List (Option GiphyData)) : List Event :=
  if data.length = 0 then [Event.printNothingFound query]
  else [Event.printHeader query data.length] ++ printItems 0 data ++ [Event.printClosing]

/-- The keyword as `main` computes it: the first line of standard input, trimmed. -/
def keywordOf (w : World) : GoString := TrimSpace (ReadString (ch '\n') w.stdin).1

/-- The count text as `main` computes it: the second line of standard input, trimmed. -/
def limitStrOf (w : World) : GoString :=
  TrimSpace (ReadString (ch '\n') (ReadString (ch '\n') w.stdin).2).1

/-- The trace of events up to the check of the API key. -/
def startEvents (w : World) : List Event :=
  Event.logStart :: (if w.dotenvLoaded then [] else [Event.logDotenvMissing])

/-- The function `main`, as the trace of its effects.  A fatal event ends the trace: `log.Fatal`
exits the process. -/
def mainFlow (w : World) : List Event :=
  if w.apiKey = [] then startEvents w ++ [Event.fatalNoKey]
  else if keywordOf w = [] then startEvents w ++ [Event.promptKeyword, Event.fatalEmptyKeyword]
  else
    match Atoi (limitStrOf w) with
    | none =>
      startEvents w ++ [Event.promptKeyword, Event.promptCount, Event.fatalBadCount (limitStrOf w)]
    | some limit =>
      if limit ≤ 0 then
        startEvents w ++ [Event.promptKeyword, Event.promptCount, Event.fatalBadCount (limitStrOf w)]
      else
        startEvents w ++
          [Event.promptKeyword, Event.promptCount, Event.logSearching,
            Event.callSearchGif w.apiKey (keywordOf w) limit] ++
          (SearchGif w.doRequest w.apiKey (keywordOf w) limit).1 ++
          (match (SearchGif w.doRequest w.apiKey (keywordOf w) limit).2 with
            | Except.error err => [Event.fatalSearch err]
            | Except.ok response => printResults (keywordOf w) response.Data)

/-- The bytes a trace writes to standard output. -/
def stdoutOf (trace : List Event) : GoString := trace.flatMap Event.stdout

/-! ## Vocabulary of the properties -/

deriving instance DecidableEq for Except

/-- The bytes `QueryEscape` can write: unreserved characters, `%` and `+`. -/
def escapedByte (b : Byte) : Bool := !shouldEscape b || b = ch '%' || b = ch '+'

/-- The bytes `Itoa` can write: decimal digits and `-`. -/
def numberByte (b : Byte) : Bool := isDigit b || b = ch '-'

/-- The bytes of the query string of `SearchGif`: escaped bytes, `&` and `=`. -/
def queryByte (b : Byte) : Bool := escapedByte b || b = ch '&' || b = ch '='

/-- The integer a decimal rendering stands for. -/
def valueOf (s : GoString) : Int :=
  if s.head? = some (ch '-') then -(digitsValue s.tail : Int) else (digitsValue s : Int)

/-- A string that consists only of white space: the UTF-8 encodings of white-space runes, one
after the other (no rune at all for the empty string). -/
def OnlyWhitespace (s : GoString) : Prop :=
  ∃ runes : List Nat, (∀ r ∈ runes, IsSpace r = true) ∧ s = runes.flatMap EncodeRune

/-- The keyword line of a run: the first line of standard input, as `main` reads it. -/
def keywordLine (w : World) : GoString := (ReadString (ch '\n') w.stdin).1

/-- The run passes the input checks of lines 100-127: the API key is set, the keyword is not
empty, the count text parses to `limit` and `limit >= 1`. -/
def InputsAccepted (w : World) (limit : Int) : Prop :=
  w.apiKey ≠ [] ∧ keywordOf w ≠ [] ∧ Atoi (limitStrOf w) = some limit ∧ 0 < limit

/-- The request of the run is answered with status 200 and the body is read to its end. -/
def AnsweredOK (w : World) (limit : Int) (body : GoString) : Prop :=
  ∃ status, w.doRequest (requestURL w.apiKey (keywordOf w) limit) =
    Except.ok ⟨200, status, Except.ok body⟩

/-- The run gets as far as a decoded response: the inputs are accepted, the request is answered
with status 200, the body is read to its end and `json.Unmarshal` decodes it to `r`. -/
def DecodesTo (w : World) (limit : Int) (r : GiphyResponse) : Prop :=
  InputsAccepted w limit ∧ ∃ body, AnsweredOK w limit body ∧ Unmarshal body = Except.ok r

/-- The events of a run up to the return of a `SearchGif` call that read the body. -/
def eventsBeforeOutput (w : World) (limit : Int) : List Event :=
  startEvents w ++
    [Event.promptKeyword, Event.promptCount, Event.logSearching,
      Event.callSearchGif w.apiKey (keywordOf w) limit,
      Event.httpGet (requestURL w.apiKey (keywordOf w) limit), Event.readBody, Event.closeBody]

/-- The item blocks a trace prints, in order: the title and the link of each block. -/
def itemBlocks : List Event → List (GoString × GoString)
  | [] => []
  | Event.printTitle _ title :: Event.printLink url :: rest => (title, url) :: itemBlocks rest
  | _ :: rest => itemBlocks rest

/-- The numbers of the item blocks a trace prints, in order. -/
def blockNumbers (trace : List Event) : List Nat :=
  trace.filterMap (fun e => match e with | Event.printTitle n _ => some n | _ => none)

/-- The counts of the header lines a trace prints. -/
def headerCounts (trace : List Event) : List Nat :=
  trace.filterMap (fun e => match e with | Event.printHeader _ n => some n | _ => none)

/-- Whether an event is one of the result lines of lines 139-152 (nothing-found line, header,
item lines, closing line). -/
def Event.isResultLine : Event → Bool
  | Event.printNothingFound _ => true
  | Event.printHeader _ _ => true
  | Event.printTitle _ _ => true
  | Event.printLink _ => true
  | Event.printClosing => true
  | _ => false

/-- Whether an event is a fatal exit. -/
def Event.isFatal : Event → Bool
  | Event.fatalNoKey => true
  | Event.fatalEmptyKeyword => true
  | Event.fatalBadCount _ => true
  | Event.fatalSearch _ => true
  | _ => false

/-- Whether an event is a call of `SearchGif` or its network request. -/
def Event.isSearch : Event → Bool
  | Event.callSearchGif _ _ _ => true
  | Event.httpGet _ => true
  | _ => false

/-- The entries of the array that are not null, in the order of the array. -/
def nonNull (data : List (Option GiphyData)) : List GiphyData := data.filterMap id

/-- The positions (0-based) of the entries of the array that are not null. -/
def nonNullPositions (data : List (Option GiphyData)) : List Nat :=
  (data.enum.filter (fun p => p.2.isSome)).map (fun p => p.1)

/-- The number of null entries of the array. -/
def nullCount (data : List (Option GiphyData)) : Nat := data.countP (fun o => o.isNone)

/-- The entries of the array that are not null, each with its 0-based position. -/
def numberedNonNull (data : List (Option GiphyData)) : List (Nat × GiphyData) :=
  data.enum.filterMap (fun p => p.2.map (fun g => (p.1, g)))

/-- The text of one item block: the line with the number and the title, then the line with the
link. -/
def blockText (number : Nat) (title url : GoString) : GoString :=
  utf8 "\n" ++ Itoa number ++ utf8 ". Назва: " ++ title ++ utf8 "\n" ++
    (utf8 "   Посилання: " ++ url ++ utf8 "\n")

/-! ## Sample runs -/

/-- A server that answers every request with the given status code, status text and body. -/
def answering (code : Int) (status body : GoString) : GoString → Except GoString Response :=
  fun _ => Except.ok ⟨code, status, Except.ok body⟩

/-- A run with the `.env` file loaded, the API key `KEY`, the given bytes on standard input and
a server that answers with the given status code, status text and body. -/
def sampleRun (stdin : GoString) (code : Int) (status body : GoString) : World :=
  ⟨true, utf8 "KEY", stdin, answering code status body⟩

/-- The response body of the third example of section 8 of the specification: an object whose
`data` array holds the item `cat gif` / `https://giphy.com/x`, then `null`, then the item with
the empty title and the link `https://giphy.com/y`. -/
def threeEntries : GoString :=
  utf8 "\x7b\"data\":[\x7b\"title\":\"cat gif\",\"url\":\"https://giphy.com/x\"\x7d, null, \x7b\"title\":\"\",\"url\":\"https://giphy.com/y\"\x7d]\x7d"

/-- What `threeEntries` decodes to. -/
def threeEntriesDecoded : GiphyResponse :=
  ⟨[some ⟨utf8 "cat gif", utf8 "https://giphy.com/x"⟩, none, some ⟨[], utf8 "https://giphy.com/y"⟩]⟩

/-- The response body of the second example of section 8: an object with an empty `data`
array. -/
def emptyData : GoString := utf8 "\x7b\"data\":[]\x7d"

/-- The response body that is an object without members. -/
def emptyObject : GoString := utf8 "\x7b\x7d"

/-- A response body that is not JSON. -/
def notJSON : GoString := utf8 "not json"

/-- The sample run with keyword `cat`, count `3`, status 200 and the given body. -/
def catRun (body : GoString) : World := sampleRun (utf8 "cat\n3\n") 200 (utf8 "200 OK") body

/-- The sample run with keyword `cat` and the count line ` 0 `. -/
def zeroCountRun : World := sampleRun (utf8 "cat\n 0 \n") 200 (utf8 "200 OK") threeEntries

/-- The sample run with keyword `cat` and the count line `abc`. -/
def badCountRun : World := sampleRun (utf8 "cat\nabc\n") 200 (utf8 "200 OK") threeEntries

/-- The sample run whose keyword line is three spaces. -/
def blankKeywordRun : World := sampleRun (utf8 "   \n3\n") 200 (utf8 "200 OK") threeEntries

/-- The run with the input of `blankKeywordRun` and no API key. -/
def noKeyRun : World := ⟨true, [], utf8 "   \n3\n", answering 200 (utf8 "200 OK") threeEntries⟩

/-! ## Facts about the library models -/

set_option maxRecDepth 100000 in
theorem escapeByte_escaped : ∀ c : Byte, (escapeByte c).all escapedByte = true := by
  decide!

theorem QueryEscape_escaped (s : GoString) : ∀ b ∈ QueryEscape s, escapedByte b = true := by
  intro b hb
  simp only [QueryEscape, List.mem_flatMap] at hb
  obtain ⟨c, _, hc⟩ := hb
  exact List.all_eq_true.mp (escapeByte_escaped c) b hc

theorem QueryEscape_cons (c : Byte) (s : GoString) :
    QueryEscape (c :: s) = escapeByte c ++ QueryEscape s := by
  simp [QueryEscape, List.flatMap_cons]

set_option maxRecDepth 100000 in
theorem escapeByte_cases : ∀ c : Byte,
    (escapeByte c = [c] ∧ c ≠ ch '%' ∧ c ≠ ch '+') ∨
    (escapeByte c = [ch '+'] ∧ c = ch ' ') ∨
    (escapeByte c = [ch '%', hexDigit (c.val / 16), hexDigit (c.val % 16)] ∧
      ishex (hexDigit (c.val / 16)) = true ∧ ishex (hexDigit (c.val % 16)) = true ∧
      (Fin.ofNat (unhex (hexDigit (c.val / 16)) * 16 + unhex (hexDigit (c.val % 16))) : Byte) = c) := by
  decide!

theorem QueryUnescape_escapeByte (c : Byte) (rest : GoString) :
    QueryUnescape (escapeByte c ++ rest) = (QueryUnescape rest).map (fun t => c :: t) := by
  rcases escapeByte_cases c with ⟨h, h1, h2⟩ | ⟨h, h1⟩ | ⟨h, h1, h2, h3⟩
  · rw [h, List.singleton_append]
    conv_lhs => unfold QueryUnescape
    simp [h1, h2]
  · rw [h, h1, List.singleton_append]
    conv_lhs => unfold QueryUnescape
    have h3 : ch '+' ≠ ch '%' := by decide
    simp [h3]
  · rw [h]
    simp [QueryUnescape, h1, h2, h3]

/-- Unescaping an escaped string gives the string back. -/
theorem QueryUnescape_QueryEscape (s : GoString) : QueryUnescape (QueryEscape s) = some s := by
  induction s with
  | nil => simp [QueryEscape, QueryUnescape]
  | cons c s ih => rw [QueryEscape_cons, QueryUnescape_escapeByte, ih]; rfl

set_option maxRecDepth 100000 in
theorem escapeByte_numberByte : ∀ c : Byte, numberByte c = true → escapeByte c = [c] := by
  decide!

/-- Escaping leaves a string of digits and `-` as it is. -/
theorem QueryEscape_of_numberBytes (s : GoString) (h : ∀ b ∈ s, numberByte b = true) :
    QueryEscape s = s := by
  induction s with
  | nil => rfl
  | cons c s ih =>
    rw [QueryEscape_cons, escapeByte_numberByte c (h c (List.mem_cons_self c s)),
      ih (fun b hb => h b (List.mem_cons_of_mem c hb))]
    rfl

theorem digitsRev_numberBytes (fuel n : Nat) : ∀ b ∈ digitsRev fuel n, isDigit b = true := by
  induction fuel generalizing n with
  | zero => simp [digitsRev]
  | succ fuel ih =>
    intro b hb
    unfold digitsRev at hb
    split at hb
    · rename_i hn
      simp only [List.mem_singleton] at hb
      subst hb
      interval_cases n <;> decide
    · simp only [List.mem_cons] at hb
      rcases hb with hb | hb
      · subst hb
        have : n % 10 < 10 := Nat.mod_lt _ (by decide)
        generalize n % 10 = m at this
        interval_cases m <;> decide
      · exact ih _ b hb

theorem Itoa_numberBytes (i : Int) : ∀ b ∈ Itoa i, numberByte b = true := by
  intro b hb
  unfold Itoa at hb
  have hd : ∀ b ∈ formatNat i.natAbs, numberByte b = true := by
    intro b hb
    simp only [formatNat, List.mem_reverse] at hb
    simp [numberByte, digitsRev_numberBytes _ _ b hb]
  split at hb
  · simp only [List.mem_cons] at hb
    rcases hb with hb | hb
    · subst hb; decide
    · exact hd b hb
  · exact hd b hb

theorem not_mem_Itoa (b : Byte) (i : Int) (h : numberByte b = false) : b ∉ Itoa i := by
  intro hb
  rw [Itoa_numberBytes i b hb] at h
  exact Bool.noConfusion h

theorem cut_of_not_mem (sep : Byte) (s : GoString) (h : sep ∉ s) : cut sep s = (s, none) := by
  induction s with
  | nil => rfl
  | cons c s ih =>
    simp only [List.mem_cons, not_or] at h
    simp [cut, ih h.2, Ne.symm h.1]

theorem cut_append (sep : Byte) (a b : GoString) (h : sep ∉ a) :
    cut sep (a ++ sep :: b) = (a, some b) := by
  induction a with
  | nil => simp [cut]
  | cons c a ih =>
    simp only [List.mem_cons, not_or] at h
    simp [cut, ih h.2, Ne.symm h.1]

theorem splitBy_of_not_mem (sep : Byte) (s : GoString) (h : sep ∉ s) : splitBy sep s = [s] := by
  induction s with
  | nil => rfl
  | cons c s ih =>
    simp only [List.mem_cons, not_or] at h
    simp [splitBy, ih h.2, Ne.symm h.1]

theorem splitBy_append (sep : Byte) (a b : GoString) (h : sep ∉ a) :
    splitBy sep (a ++ sep :: b) = a :: splitBy sep b := by
  induction a with
  | nil => simp [splitBy]
  | cons c a ih =>
    simp only [List.mem_cons, not_or] at h
    simp [splitBy, ih h.2, Ne.symm h.1]

/-- The query string `params.Encode()` of `SearchGif`: the keys come out sorted. -/
theorem searchParams_Encode (apiKey query : GoString) (limit : Int) :
    (searchParams apiKey query limit).Encode =
      utf8 "api_key=" ++ QueryEscape apiKey ++ utf8 "&limit=" ++ Itoa limit ++
        utf8 "&q=" ++ QueryEscape query := by
  have h1 : (utf8 "api_key" = utf8 "q") = False := by decide
  have h2 : (utf8 "api_key" = utf8 "limit") = False := by decide
  have h3 : (utf8 "q" = utf8 "limit") = False := by decide
  have h4 : strLess (utf8 "q") (utf8 "limit") = false := by decide
  have h5 : strLess (utf8 "api_key") (utf8 "limit") = true := by decide
  have h6 : strLess (utf8 "api_key") (utf8 "q") = true := by decide
  have h7 : strLess (utf8 "limit") (utf8 "q") = true := by decide
  have h8 : strLess (utf8 "limit") (utf8 "api_key") = false := by decide
  have h9 : strLess (utf8 "q") (utf8 "api_key") = false := by decide
  have e1 : QueryEscape (utf8 "api_key") = utf8 "api_key" := by decide
  have e2 : QueryEscape (utf8 "limit") = utf8 "limit" := by decide
  have e3 : QueryEscape (utf8 "q") = utf8 "q" := by decide
  have e4 : utf8 "api_key=" = utf8 "api_key" ++ [ch '='] := by decide
  have e5 : utf8 "&limit=" = [ch '&'] ++ utf8 "limit" ++ [ch '='] := by decide
  have e6 : utf8 "&q=" = [ch '&'] ++ utf8 "q" ++ [ch '='] := by decide
  simp only [searchParams, Values.Add, Values.Encode, sortByKey, insertByKey, h1, h2, h3, h4, h5,
    h6, h7, h8, h9, if_false, if_true, List.foldl_cons, List.foldl_nil, writePair, e1, e2, e3, e4, e5, e6,
    QueryEscape_of_numberBytes _ (Itoa_numberBytes limit)]
  simp [writePair, e1, e2, e3, QueryEscape_of_numberBytes _ (Itoa_numberBytes limit)]

set_option maxRecDepth 100000 in
theorem queryByte_of_escapedByte : ∀ b : Byte, escapedByte b = true → queryByte b = true := by
  decide!

set_option maxRecDepth 100000 in
theorem queryByte_of_numberByte : ∀ b : Byte, numberByte b = true → queryByte b = true := by
  decide!

set_option maxRecDepth 100000 in
theorem queryByte_plain : ∀ b : Byte, queryByte b = true →
    b ≠ ch '#' ∧ b ≠ ch '?' ∧ b ≠ ch ';' ∧ (decide (b.val < 0x20 ∨ b.val = 0x7f)) = false := by
  decide!

set_option maxRecDepth 100000 in
theorem escapedByte_plain : ∀ b : Byte, escapedByte b = true →
    b ≠ ch '&' ∧ b ≠ ch '=' ∧ b ≠ ch ';' := by
  decide!

theorem all_queryByte_QueryEscape (s : GoString) : (QueryEscape s).all queryByte = true :=
  List.all_eq_true.mpr (fun b hb => queryByte_of_escapedByte b (QueryEscape_escaped s b hb))

theorem all_queryByte_Itoa (i : Int) : (Itoa i).all queryByte = true :=
  List.all_eq_true.mpr (fun b hb => queryByte_of_numberByte b (Itoa_numberBytes i b hb))

/-- Every byte of the query string of `SearchGif` is an escaped byte, `&` or `=`. -/
theorem all_queryByte_Encode (apiKey query : GoString) (limit : Int) :
    ((searchParams apiKey query limit).Encode).all queryByte = true := by
  rw [searchParams_Encode]
  simp only [List.all_append, Bool.and_eq_true]
  exact ⟨⟨⟨⟨⟨by decide, all_queryByte_QueryEscape apiKey⟩, by decide⟩, all_queryByte_Itoa limit⟩,
    by decide⟩, all_queryByte_QueryEscape query⟩

/-- The check of `url.Parse` never rejects the URL of `SearchGif`: line 48 is not reachable. -/
theorem requestURL_no_CTL (apiKey query : GoString) (limit : Int) :
    stringContainsCTLByte (requestURL apiKey query limit) = false := by
  have hq := all_queryByte_Encode apiKey query limit
  have hb : stringContainsCTLByte (baseURL ++ utf8 "?") = false := by decide
  unfold stringContainsCTLByte at hb ⊢
  unfold requestURL
  rw [List.any_append, hb, Bool.false_or, List.any_eq_false]
  intro b hb
  have := (queryByte_plain b (List.all_eq_true.mp hq b hb)).2.2.2
  simpa using this

/-- The query part `url.Parse` finds in the URL of `SearchGif` is `params.Encode()`. -/
theorem rawQuery_requestURL (apiKey query : GoString) (limit : Int) :
    rawQuery (requestURL apiKey query limit) = (searchParams apiKey query limit).Encode := by
  have hq := all_queryByte_Encode apiKey query limit
  have h1 : ch '#' ∉ requestURL apiKey query limit := by
    unfold requestURL
    simp only [List.mem_append, not_or]
    refine ⟨⟨by decide, by decide⟩, fun hb => ?_⟩
    exact (queryByte_plain _ (List.all_eq_true.mp hq _ hb)).1 rfl
  have h2 : ch '?' ∉ baseURL := by decide
  have h3 : utf8 "?" = [ch '?'] := by decide
  unfold rawQuery
  rw [cut_of_not_mem _ _ h1]
  unfold requestURL
  rw [h3, List.append_assoc, List.singleton_append, cut_append _ _ _ h2]
  rfl

/-- A piece `key=value` with an escaped value decodes to the key and the value. -/
theorem parsePair_escaped (key value : GoString) (h1 : ch ';' ∉ key) (h2 : ch '=' ∉ key)
    (h3 : QueryUnescape key = some key) :
    parsePair (key ++ ch '=' :: QueryEscape value) = some (key, value) := by
  have h4 : ch ';' ∉ key ++ ch '=' :: QueryEscape value := by
    simp only [List.mem_append, List.mem_cons, not_or]
    refine ⟨h1, by decide, fun hb => ?_⟩
    exact (escapedByte_plain _ (QueryEscape_escaped value _ hb)).2.2 rfl
  unfold parsePair
  rw [if_neg h4, if_neg (by simp), cut_append _ _ _ h2]
  simp [h3, QueryUnescape_QueryEscape]

theorem not_mem_amp_piece (key value : GoString) (h : ch '&' ∉ key) :
    ch '&' ∉ key ++ ch '=' :: QueryEscape value := by
  simp only [List.mem_append, List.mem_cons, not_or]
  refine ⟨h, by decide, fun hb => ?_⟩
  exact (escapedByte_plain _ (QueryEscape_escaped value _ hb)).1 rfl

/-- Decoding the query string of `SearchGif` gives back the three parameters. -/
theorem ParseQuery_Encode (apiKey query : GoString) (limit : Int) :
    ParseQuery ((searchParams apiKey query limit).Encode) =
      [(utf8 "api_key", apiKey), (utf8 "limit", Itoa limit), (utf8 "q", query)] := by
  have e4 : utf8 "api_key=" = utf8 "api_key" ++ [ch '='] := by decide
  have e5 : utf8 "&limit=" = [ch '&'] ++ utf8 "limit" ++ [ch '='] := by decide
  have e6 : utf8 "&q=" = [ch '&'] ++ utf8 "q" ++ [ch '='] := by decide
  have hl : Itoa limit = QueryEscape (Itoa limit) :=
    (QueryEscape_of_numberBytes _ (Itoa_numberBytes limit)).symm
  have hshape : (searchParams apiKey query limit).Encode =
      (utf8 "api_key" ++ ch '=' :: QueryEscape apiKey) ++ ch '&' ::
        ((utf8 "limit" ++ ch '=' :: QueryEscape (Itoa limit)) ++ ch '&' ::
          (utf8 "q" ++ ch '=' :: QueryEscape query)) := by
    rw [searchParams_Encode, e4, e5, e6, ← hl]
    simp
  rw [hshape]
  unfold ParseQuery
  rw [splitBy_append _ _ _ (not_mem_amp_piece _ _ (by decide)),
    splitBy_append _ _ _ (not_mem_amp_piece _ _ (by decide)),
    splitBy_of_not_mem _ _ (not_mem_amp_piece _ _ (by decide))]
  simp only [List.filterMap_cons, List.filterMap_nil]
  rw [parsePair_escaped _ _ (by decide) (by decide) (by decide),
    parsePair_escaped _ _ (by decide) (by decide) (by decide),
    parsePair_escaped _ _ (by decide) (by decide) (by decide)]

/-! ## Facts about `SearchGif` -/

/-- The outcome of `SearchGif` when the transport fails. -/
theorem SearchGif_transport_error (doRequest : GoString → Except GoString Response)
    (apiKey query : GoString) (limit : Int) (cause : GoString)
    (h : doRequest (requestURL apiKey query limit) = Except.error cause) :
    SearchGif doRequest apiKey query limit =
      ([Event.httpGet (requestURL apiKey query limit)],
        Except.error (SearchError.network cause)) := by
  simp [SearchGif, requestURL_no_CTL, h]

/-- The outcome of `SearchGif` for a status other than 200. -/
theorem SearchGif_status_other (doRequest : GoString → Except GoString Response)
    (apiKey query : GoString) (limit : Int) (resp : Response)
    (h : doRequest (requestURL apiKey query limit) = Except.ok resp)
    (hs : resp.StatusCode ≠ 200) :
    SearchGif doRequest apiKey query limit =
      ([Event.httpGet (requestURL apiKey query limit), Event.closeBody],
        Except.error (if resp.StatusCode = 401 ∨ resp.StatusCode = 403
          then SearchError.invalidKey resp.StatusCode
          else SearchError.server resp.StatusCode resp.Status)) := by
  simp only [SearchGif, requestURL_no_CTL, h]
  by_cases hk : resp.StatusCode = 401 ∨ resp.StatusCode = 403 <;> simp [hs, hk]

/-- The outcome of `SearchGif` for status 200. -/
theorem SearchGif_status_200 (doRequest : GoString → Except GoString Response)
    (apiKey query : GoString) (limit : Int) (resp : Response)
    (h : doRequest (requestURL apiKey query limit) = Except.ok resp)
    (hs : resp.StatusCode = 200) :
    SearchGif doRequest apiKey query limit =
      ([Event.httpGet (requestURL apiKey query limit), Event.readBody, Event.closeBody],
        match resp.Body with
        | Except.error cause => Except.error (SearchError.read cause)
        | Except.ok body =>
          match Unmarshal body with
          | Except.error e => Except.error (SearchError.decode e)
          | Except.ok apiResponse => Except.ok apiResponse) := by
  simp only [SearchGif, requestURL_no_CTL, h]
  cases hb : resp.Body with
  | error cause => simp [hs]
  | ok body =>
    cases hu : Unmarshal body with
    | error e => simp [hs, hu]
    | ok r => simp [hs, hu]

/-- The request is always made, and for the URL `requestURL`. -/
theorem SearchGif_first_event (doRequest : GoString → Except GoString Response)
    (apiKey query : GoString) (limit : Int) :
    (SearchGif doRequest apiKey query limit).1.head? =
      some (Event.httpGet (requestURL apiKey query limit)) := by
  cases h : doRequest (requestURL apiKey query limit) with
  | error cause => rw [SearchGif_transport_error _ _ _ _ _ h]; rfl
  | ok resp =>
    by_cases hs : resp.StatusCode = 200
    · rw [SearchGif_status_200 _ _ _ _ _ h hs]; rfl
    · rw [SearchGif_status_other _ _ _ _ _ h hs]; rfl

/-! ## C9: the shape of the request URL -/

/-- C9, as the code has it. For every API key, query and limit, the URL requested by
`SearchGif` is the fixed base `https://api.giphy.com/v1/gifs/search` followed by
`?api_key=<enc key>&limit=<decimal limit>&q=<enc query>`: the parameters come in the order
`api_key`, `limit`, `q` (`Values.Encode` sorts by name), the limit as its decimal string; the
request is always made for this URL, and decoding its query part gives exactly these three
parameters, each once. -/
theorem request_url_shape (doRequest : GoString → Except GoString Response)
    (apiKey query : GoString) (limit : Int) :
    requestURL apiKey query limit =
        utf8 "https://api.giphy.com/v1/gifs/search" ++ utf8 "?api_key=" ++ QueryEscape apiKey ++
          utf8 "&limit=" ++ Itoa limit ++ utf8 "&q=" ++ QueryEscape query ∧
      (SearchGif doRequest apiKey query limit).1.head? =
        some (Event.httpGet (requestURL apiKey query limit)) ∧
      ParseQuery (rawQuery (requestURL apiKey query limit)) =
        [(utf8 "api_key", apiKey), (utf8 "limit", Itoa limit), (utf8 "q", query)] := by
  refine ⟨?_, SearchGif_first_event _ _ _ _, ?_⟩
  · have e : utf8 "?api_key=" = utf8 "?" ++ utf8 "api_key=" := by decide
    unfold requestURL baseURL
    rw [searchParams_Encode, e]
    simp only [List.append_assoc]
  · rw [rawQuery_requestURL, ParseQuery_Encode]

/-- C9 as stated fails: for key `k`, query `cat` and limit 5 the URL ends in
`?api_key=k&limit=5&q=cat`, not in `?api_key=k&q=cat&limit=5`. -/
theorem request_url_order_counterexample :
    requestURL (utf8 "k") (utf8 "cat") 5 =
        utf8 "https://api.giphy.com/v1/gifs/search?api_key=k&limit=5&q=cat" ∧
      requestURL (utf8 "k") (utf8 "cat") 5 ≠
        baseURL ++ utf8 "?api_key=" ++ QueryEscape (utf8 "k") ++ utf8 "&q=" ++
          QueryEscape (utf8 "cat") ++ utf8 "&limit=" ++ Itoa 5 := by
  decide!

/-! ## C1 -/

/-- C1. For every API key, every limit and every query string (any bytes: spaces, non-ASCII,
reserved characters such as `&`, `=`, `+`, `%`, `#`, `?`), `SearchGif` requests a URL whose
query part is made of unreserved characters, `%XX` escapes, `+`, `&` and `=` only and holds
exactly one parameter `q`, and the standard query-string decoding of that parameter
(`url.ParseQuery`: split at `&`, split at `=`, `+` and `%XX` decoded) is the original query
string. -/
theorem q_parameter_roundtrip (doRequest : GoString → Except GoString Response)
    (apiKey query : GoString) (limit : Int) :
    ∃ url, (SearchGif doRequest apiKey query limit).1.head? = some (Event.httpGet url) ∧
      (rawQuery url).all queryByte = true ∧
      queryValues (utf8 "q") (rawQuery url) = [query] := by
  have h1 : (utf8 "api_key" = utf8 "q") = False := by decide
  have h2 : (utf8 "limit" = utf8 "q") = False := by decide
  refine ⟨requestURL apiKey query limit, SearchGif_first_event _ _ _ _, ?_, ?_⟩
  · rw [rawQuery_requestURL]
    exact all_queryByte_Encode apiKey query limit
  · rw [rawQuery_requestURL]
    unfold queryValues
    rw [ParseQuery_Encode]
    simp [List.filter, h1, h2]

/-! ## Decimal rendering can be read back -/

theorem digit_val (n : Nat) (h : n < 10) : ((Fin.ofNat (48 + n) : Byte)).val - 48 = n := by
  interval_cases n <;> rfl

theorem digitsRev_value (fuel : Nat) : ∀ n, n < fuel →
    (digitsRev fuel n).foldr (fun c v => v * 10 + (c.val - 48)) 0 = n := by
  induction fuel with
  | zero => intro n h; omega
  | succ fuel ih =>
    intro n h
    unfold digitsRev
    split
    · rename_i hn
      simp [digit_val n hn]
    · rename_i hn
      have h1 : n / 10 < fuel := by omega
      simp only [List.foldr_cons, ih _ h1, digit_val _ (Nat.mod_lt n (by decide : 0 < 10))]
      omega

theorem digitsValue_formatNat (n : Nat) : digitsValue (formatNat n) = n := by
  unfold digitsValue formatNat
  rw [List.foldl_reverse]
  exact digitsRev_value (n + 1) n (Nat.lt_succ_self n)

theorem formatNat_head (n : Nat) : (formatNat n).head? ≠ some (ch '-') := by
  intro h
  have hm : ch '-' ∈ formatNat n := List.mem_of_mem_head? h
  simp only [formatNat, List.mem_reverse] at hm
  have := digitsRev_numberBytes _ _ _ hm
  revert this
  decide

/-- Reading back the decimal rendering of an integer gives the integer. -/
theorem valueOf_Itoa (i : Int) : valueOf (Itoa i) = i := by
  unfold Itoa valueOf
  split
  · rename_i h
    simp only [List.head?_cons, if_true, List.tail_cons, digitsValue_formatNat]
    omega
  · rename_i h
    rw [if_neg (formatNat_head _), digitsValue_formatNat]
    omega

/-- Two texts that agree, each split at a byte its first part does not contain, have the same
first part. -/
theorem first_part_unique (sep : Byte) (a a2 b b2 : GoString) (h1 : sep ∉ a) (h2 : sep ∉ a2)
    (h : a ++ sep :: b = a2 ++ sep :: b2) : a = a2 := by
  have := congrArg (cut sep) h
  rw [cut_append _ _ _ h1, cut_append _ _ _ h2] at this
  exact (Prod.mk.inj this).1

/-- The text of the invalid-API-key error is never the text of the generic server error of
another status code. -/
theorem invalidKeyMessage_ne_serverMessage (code other : Int) (status : GoString)
    (h : other ≠ code) : invalidKeyMessage code ≠ serverMessage other status := by
  intro heq
  unfold invalidKeyMessage serverMessage at heq
  have e1 : utf8 "): невірний API-ключ. Перевірте ваш .env файл" =
      ch ')' :: utf8 ": невірний API-ключ. Перевірте ваш .env файл" := by decide
  have e2 : utf8 "): " = ch ')' :: utf8 ": " := by decide
  rw [List.append_assoc, List.append_assoc, List.append_assoc] at heq
  have h2 := List.append_cancel_left heq
  rw [e1, e2, List.cons_append] at h2
  have hn : numberByte (ch ')') = false := by decide
  have h3 := first_part_unique (ch ')') _ _ _ _ (not_mem_Itoa _ code hn) (not_mem_Itoa _ other hn) h2
  have h4 := congrArg valueOf h3
  rw [valueOf_Itoa, valueOf_Itoa] at h4
  exact h h4.symm

/-! ## C2: status 401 and 403 -/

/-- C2. For every response whose HTTP status is 401 or 403, whatever its status text and body,
`SearchGif` returns no result but the invalid-API-key error of line 63; the body is neither read
nor decoded (the trace is the request and the close of the body, no read); and this error
differs from the generic server error of every other status, as a value and as a text. -/
theorem invalid_key_status (doRequest : GoString → Except GoString Response)
    (apiKey query : GoString) (limit : Int) (resp : Response)
    (h : doRequest (requestURL apiKey query limit) = Except.ok resp)
    (hs : resp.StatusCode = 401 ∨ resp.StatusCode = 403) :
    SearchGif doRequest apiKey query limit =
        ([Event.httpGet (requestURL apiKey query limit), Event.closeBody],
          Except.error (SearchError.invalidKey resp.StatusCode)) ∧
      Event.readBody ∉ (SearchGif doRequest apiKey query limit).1 ∧
      (∀ other status, other ≠ 401 → other ≠ 403 →
        SearchError.invalidKey resp.StatusCode ≠ SearchError.server other status ∧
        invalidKeyMessage resp.StatusCode ≠ serverMessage other status) := by
  have h200 : resp.StatusCode ≠ 200 := by omega
  have hres := SearchGif_status_other doRequest apiKey query limit resp h h200
  rw [if_pos hs] at hres
  refine ⟨hres, ?_, ?_⟩
  · rw [hres]; simp
  · intro other status h1 h3
    refine ⟨by simp, invalidKeyMessage_ne_serverMessage _ _ _ ?_⟩
    omega

/-- C2 at a concrete response: status 401 with a body that would decode. -/
theorem invalid_key_status_witness :
    SearchGif (answering 401 (utf8 "401 Unauthorized") emptyData) (utf8 "k") (utf8 "cat") 5 =
      ([Event.httpGet (requestURL (utf8 "k") (utf8 "cat") 5), Event.closeBody],
        Except.error (SearchError.invalidKey 401)) :=
  (invalid_key_status (answering 401 (utf8 "401 Unauthorized") emptyData) (utf8 "k") (utf8 "cat")
    5 ⟨401, utf8 "401 Unauthorized", Except.ok emptyData⟩ rfl (Or.inl rfl)).1

/-! ## C3: the other statuses -/

/-- C3, as the code has it. Once the transport succeeded, `SearchGif` fails with a server error
exactly when the HTTP status differs from 200: every status other than 200, 401 and 403 yields
the server error of line 65 carrying the numeric status and the status text, without reading the
body; status 200 is never a server error and proceeds to reading and decoding the body. -/
theorem server_error_status (doRequest : GoString → Except GoString Response)
    (apiKey query : GoString) (limit : Int) (resp : Response)
    (h : doRequest (requestURL apiKey query limit) = Except.ok resp) :
    (resp.StatusCode ≠ 200 → resp.StatusCode ≠ 401 → resp.StatusCode ≠ 403 →
        SearchGif doRequest apiKey query limit =
          ([Event.httpGet (requestURL apiKey query limit), Event.closeBody],
            Except.error (SearchError.server resp.StatusCode resp.Status))) ∧
      (resp.StatusCode = 200 →
        (SearchGif doRequest apiKey query limit).1 =
          [Event.httpGet (requestURL apiKey query limit), Event.readBody, Event.closeBody]) ∧
      (((∃ code status, (SearchGif doRequest apiKey query limit).2 =
            Except.error (SearchError.server code status)) ∨
          (∃ code, (SearchGif doRequest apiKey query limit).2 =
            Except.error (SearchError.invalidKey code))) ↔ resp.StatusCode ≠ 200) := by
  refine ⟨?_, ?_, ?_⟩
  · intro h1 h2 h3
    rw [SearchGif_status_other doRequest apiKey query limit resp h h1, if_neg (by omega)]
  · intro h1
    rw [SearchGif_status_200 doRequest apiKey query limit resp h h1]
  · constructor
    · intro herr h1
      rw [SearchGif_status_200 doRequest apiKey query limit resp h h1] at herr
      cases hb : resp.Body with
      | error cause => simp [hb] at herr
      | ok body =>
        cases hu : Unmarshal body with
        | error e => simp [hb, hu] at herr
        | ok r => simp [hb, hu] at herr
    · intro h1
      rw [SearchGif_status_other doRequest apiKey query limit resp h h1]
      by_cases hk : resp.StatusCode = 401 ∨ resp.StatusCode = 403
      · right; exact ⟨resp.StatusCode, by rw [if_pos hk]⟩
      · left; exact ⟨resp.StatusCode, resp.Status, by rw [if_neg hk]⟩

/-- C3 (as the code has it) at a concrete response: status 500. -/
theorem server_error_status_witness :
    SearchGif (answering 500 (utf8 "500 Internal Server Error") []) (utf8 "k") (utf8 "cat") 5 =
      ([Event.httpGet (requestURL (utf8 "k") (utf8 "cat") 5), Event.closeBody],
        Except.error (SearchError.server 500 (utf8 "500 Internal Server Error"))) :=
  (server_error_status (answering 500 (utf8 "500 Internal Server Error") []) (utf8 "k")
    (utf8 "cat") 5 ⟨500, utf8 "500 Internal Server Error", Except.ok []⟩ rfl).1
    (by decide) (by decide) (by decide)

/-- C3 as stated fails: status 201 lies in the range 200..299, yet `SearchGif` returns the
server error of line 65 and does not read the body. -/
theorem status_201_counterexample :
    SearchGif (answering 201 (utf8 "201 Created") emptyData) (utf8 "k") (utf8 "cat") 5 =
      ([Event.httpGet (requestURL (utf8 "k") (utf8 "cat") 5), Event.closeBody],
        Except.error (SearchError.server 201 (utf8 "201 Created"))) := by
  decide!

/-! ## White space is trimmed away -/

theorem IsSpace_cases (r : Nat) (h : IsSpace r = true) :
    r ∈ [9, 10, 11, 12, 13, 0x20, 0x85, 0xA0, 0x1680, 0x2000, 0x2001, 0x2002, 0x2003, 0x2004,
      0x2005, 0x2006, 0x2007, 0x2008, 0x2009, 0x200A, 0x2028, 0x2029, 0x202F, 0x205F, 0x3000] := by
  simp only [IsSpace, decide_eq_true_eq] at h
  rcases h with ⟨h1, h2⟩ | h | h | h | h | ⟨h1, h2⟩ | h | h | h | h | h
  · interval_cases r <;> simp
  all_goals first
    | (subst h; simp)
    | (interval_cases r <;> simp)

/-- Decoding the encoding of a white-space rune gives the rune and the length of the
encoding, whatever follows. -/
theorem DecodeRune_space (r : Nat) (h : IsSpace r = true) (rest : GoString) :
    DecodeRune (EncodeRune r ++ rest) = (r, (EncodeRune r).length) ∧ 0 < (EncodeRune r).length := by
  have := IsSpace_cases r h
  simp only [List.mem_cons, List.mem_singleton, List.not_mem_nil, or_false] at this
  rcases this with h | h | h | h | h | h | h | h | h | h | h | h | h | h | h | h | h | h | h | h |
    h | h | h | h | h <;> subst h <;> exact ⟨rfl, by decide⟩

theorem trimLeft_whitespace (runes : List Nat) (h : ∀ r ∈ runes, IsSpace r = true) :
    ∀ fuel, runes.length ≤ fuel → trimLeft fuel (runes.flatMap EncodeRune) = [] := by
  induction runes with
  | nil => intro fuel _; cases fuel <;> simp [trimLeft]
  | cons r runes ih =>
    intro fuel hf
    cases fuel with
    | zero => simp at hf
    | succ fuel =>
      have hr := h r (List.mem_cons_self r runes)
      have hd := DecodeRune_space r hr (runes.flatMap EncodeRune)
      simp only [List.flatMap_cons, trimLeft]
      rw [hd.1]
      simp only [hr, if_true, List.drop_left]
      split
      · assumption
      · exact ih (fun x hx => h x (List.mem_cons_of_mem r hx)) fuel (by simpa using hf)

theorem length_le_flatMap_EncodeRune (runes : List Nat) (h : ∀ r ∈ runes, IsSpace r = true) :
    runes.length ≤ (runes.flatMap EncodeRune).length := by
  induction runes with
  | nil => simp
  | cons r runes ih =>
    have hd := (DecodeRune_space r (h r (List.mem_cons_self r runes)) []).2
    have := ih (fun x hx => h x (List.mem_cons_of_mem r hx))
    simp only [List.flatMap_cons, List.length_append, List.length_cons]
    omega

/-- Trimming a string that consists only of white space leaves the empty string. -/
theorem TrimSpace_OnlyWhitespace (s : GoString) (h : OnlyWhitespace s) : TrimSpace s = [] := by
  obtain ⟨runes, hr, rfl⟩ := h
  unfold TrimSpace
  rw [trimLeft_whitespace runes hr _ (length_le_flatMap_EncodeRune runes hr)]
  cases (runes.flatMap EncodeRune).length <;> simp [trimRightRev]

/-! ## Facts about `main` -/

theorem startEvents_plain (w : World) :
    ∀ e ∈ startEvents w, e = Event.logStart ∨ e = Event.logDotenvMissing := by
  intro e he
  unfold startEvents at he
  cases hd : w.dotenvLoaded <;> simp [hd] at he <;> simp [he]

theorem SearchGif_events (doRequest : GoString → Except GoString Response)
    (apiKey query : GoString) (limit : Int) :
    ∀ e ∈ (SearchGif doRequest apiKey query limit).1,
      e = Event.httpGet (requestURL apiKey query limit) ∨ e = Event.readBody ∨
        e = Event.closeBody := by
  intro e he
  cases h : doRequest (requestURL apiKey query limit) with
  | error cause =>
    rw [SearchGif_transport_error _ _ _ _ _ h] at he
    simp at he; simp [he]
  | ok resp =>
    by_cases hs : resp.StatusCode = 200
    · rw [SearchGif_status_200 _ _ _ _ _ h hs] at he
      simp at he; rcases he with he | he | he <;> simp [he]
    · rw [SearchGif_status_other _ _ _ _ _ h hs] at he
      simp at he; rcases he with he | he <;> simp [he]

theorem printItems_events (data : List (Option GiphyData)) : ∀ i, ∀ e ∈ printItems i data,
    (∃ n title, e = Event.printTitle n title) ∨ (∃ url, e = Event.printLink url) := by
  induction data with
  | nil => intro i e he; simp [printItems] at he
  | cons gif rest ih =>
    intro i e he
    unfold printItems at he
    rw [List.mem_append] at he
    rcases he with he | he
    · cases gif with
      | none => simp at he
      | some g =>
        simp at he
        rcases he with he | he
        · exact Or.inl ⟨_, _, he⟩
        · exact Or.inr ⟨_, he⟩
    · exact ih _ e he

theorem printResults_isResultLine (query : GoString) (data : List (Option GiphyData)) :
    ∀ e ∈ printResults query data, e.isResultLine = true := by
  intro e he
  unfold printResults at he
  split at he
  · simp at he; subst he; rfl
  · simp only [List.mem_append, List.mem_singleton, List.mem_cons, List.not_mem_nil,
      or_false] at he
    rcases he with (he | he) | he
    · subst he; rfl
    · rcases printItems_events data 0 e he with ⟨n, t, h⟩ | ⟨u, h⟩ <;> subst h <;> rfl
    · subst he; rfl

/-- The trace of a run whose inputs are accepted. -/
theorem mainFlow_accepted (w : World) (limit : Int) (h : InputsAccepted w limit) :
    mainFlow w =
      startEvents w ++
        [Event.promptKeyword, Event.promptCount, Event.logSearching,
          Event.callSearchGif w.apiKey (keywordOf w) limit] ++
        (SearchGif w.doRequest w.apiKey (keywordOf w) limit).1 ++
        (match (SearchGif w.doRequest w.apiKey (keywordOf w) limit).2 with
          | Except.error err => [Event.fatalSearch err]
          | Except.ok response => printResults (keywordOf w) response.Data) := by
  obtain ⟨h1, h2, h3, h4⟩ := h
  unfold mainFlow
  rw [if_neg h1, if_neg h2, h3]
  simp only
  rw [if_neg (by omega)]

/-- The outcome of `SearchGif` for status 200 and a body read to its end. -/
theorem SearchGif_answered (w : World) (limit : Int) (body : GoString)
    (h : AnsweredOK w limit body) :
    SearchGif w.doRequest w.apiKey (keywordOf w) limit =
      ([Event.httpGet (requestURL w.apiKey (keywordOf w) limit), Event.readBody, Event.closeBody],
        match Unmarshal body with
        | Except.error e => Except.error (SearchError.decode e)
        | Except.ok apiResponse => Except.ok apiResponse) := by
  obtain ⟨status, h⟩ := h
  rw [SearchGif_status_200 _ _ _ _ _ h rfl]

/-- The trace of a run that decodes a response. -/
theorem mainFlow_decoded (w : World) (limit : Int) (r : GiphyResponse)
    (h : DecodesTo w limit r) :
    mainFlow w = eventsBeforeOutput w limit ++ printResults (keywordOf w) r.Data := by
  obtain ⟨hin, body, hans, hu⟩ := h
  rw [mainFlow_accepted w limit hin, SearchGif_answered w limit body hans, hu]
  simp [eventsBeforeOutput]

/-- The trace of a run whose response body does not decode. -/
theorem mainFlow_decode_error (w : World) (limit : Int) (body : GoString) (e : JsonError)
    (hin : InputsAccepted w limit) (hans : AnsweredOK w limit body)
    (hu : Unmarshal body = Except.error e) :
    mainFlow w = eventsBeforeOutput w limit ++ [Event.fatalSearch (SearchError.decode e)] := by
  rw [mainFlow_accepted w limit hin, SearchGif_answered w limit body hans, hu]
  simp [eventsBeforeOutput]

theorem eventsBeforeOutput_plain (w : World) (limit : Int) :
    ∀ e ∈ eventsBeforeOutput w limit, e.isResultLine = false ∧ e.isFatal = false := by
  intro e he
  unfold eventsBeforeOutput at he
  rw [List.mem_append] at he
  rcases he with he | he
  · rcases startEvents_plain w e he with h | h <;> subst h <;> exact ⟨rfl, rfl⟩
  · simp only [List.mem_cons, List.mem_singleton, List.not_mem_nil, or_false] at he
    rcases he with h | h | h | h | h | h | h <;> subst h <;> exact ⟨rfl, rfl⟩

/-- The bytes on standard output before the results: the two prompts. -/
theorem stdoutOf_eventsBeforeOutput (w : World) (limit : Int) :
    stdoutOf (eventsBeforeOutput w limit) =
      utf8 "Введіть ключове слово (наприклад, 'теніс'): " ++
        utf8 "Введіть кількість результатів: " := by
  cases hd : w.dotenvLoaded <;>
    simp [stdoutOf, eventsBeforeOutput, startEvents, hd, Event.stdout]

theorem stdoutOf_append (a b : List Event) : stdoutOf (a ++ b) = stdoutOf a ++ stdoutOf b := by
  simp [stdoutOf]

/-! ## Facts about the printed results -/

theorem itemBlocks_cons_other (e : Event) (rest : List Event)
    (h : ∀ n title, e ≠ Event.printTitle n title) : itemBlocks (e :: rest) = itemBlocks rest := by
  cases e <;> first | rfl | exact absurd rfl (h _ _)

theorem itemBlocks_append_other (pre rest : List Event)
    (h : ∀ e ∈ pre, ∀ n title, e ≠ Event.printTitle n title) :
    itemBlocks (pre ++ rest) = itemBlocks rest := by
  induction pre with
  | nil => rfl
  | cons e pre ih =>
    rw [List.cons_append, itemBlocks_cons_other e _ (h e (List.mem_cons_self e pre)),
      ih (fun x hx => h x (List.mem_cons_of_mem e hx))]

theorem itemBlocks_printItems (data : List (Option GiphyData)) : ∀ i,
    itemBlocks (printItems i data ++ [Event.printClosing]) =
      (nonNull data).map (fun g => (g.Title, g.URL)) := by
  induction data with
  | nil => intro i; rfl
  | cons gif rest ih =>
    intro i
    cases gif with
    | none => simpa [printItems, nonNull] using ih (i + 1)
    | some g =>
      have := ih (i + 1)
      simp only [nonNull] at this
      simp [printItems, nonNull, itemBlocks, this]

theorem stdoutOf_printItems (data : List (Option GiphyData)) : ∀ i,
    stdoutOf (printItems i data) =
      ((data.enumFrom i).filterMap (fun p => p.2.map (fun g => (p.1, g)))).flatMap
        (fun p => blockText (p.1 + 1) p.2.Title p.2.URL) := by
  induction data with
  | nil => intro i; rfl
  | cons gif rest ih =>
    intro i
    have := ih (i + 1)
    simp only [stdoutOf] at this
    cases gif with
    | none => simp [printItems, stdoutOf, List.enumFrom, this]
    | some g => simp [printItems, stdoutOf, List.enumFrom, this, Event.stdout, blockText]

theorem eventsBeforeOutput_no_title (w : World) (limit : Int) :
    ∀ e ∈ eventsBeforeOutput w limit, ∀ n title, e ≠ Event.printTitle n title := by
  intro e he n title heq
  have := (eventsBeforeOutput_plain w limit e he).1
  rw [heq] at this
  exact Bool.noConfusion this

/-! ## C4: one block per entry that is not null -/

/-- C4. For every run that decodes a response whose data array is not empty, the output is the
header, the item blocks and the closing line; the item blocks are exactly the entries of the
array that are not null, in the order of the array, one block per such entry, each with the
title and the URL of the entry as they are (an empty title stays empty); null entries give no
block, and the run has no fatal exit.  On standard output the two prompts are followed by the
header line, the texts of the blocks of the non-null entries in order, and the closing line. -/
theorem item_blocks_are_non_null_entries (w : World) (limit : Int) (r : GiphyResponse)
    (h : DecodesTo w limit r) (hne : r.Data ≠ []) :
    mainFlow w =
        eventsBeforeOutput w limit ++ [Event.printHeader (keywordOf w) r.Data.length] ++
          printItems 0 r.Data ++ [Event.printClosing] ∧
      itemBlocks (mainFlow w) = (nonNull r.Data).map (fun g => (g.Title, g.URL)) ∧
      (∀ e ∈ mainFlow w, e.isFatal = false) ∧
      stdoutOf (mainFlow w) =
        utf8 "Введіть ключове слово (наприклад, 'теніс'): " ++
          utf8 "Введіть кількість результатів: " ++
          (utf8 "\n--- Результати пошуку для '" ++ keywordOf w ++ utf8 "' (" ++
            Itoa r.Data.length ++ utf8 " шт.) ---\n") ++
          (numberedNonNull r.Data).flatMap (fun p => blockText (p.1 + 1) p.2.Title p.2.URL) ++
          (utf8 "\n--- Кінець результатів ---" ++ utf8 "\n") := by
  have hlen : ¬ r.Data.length = 0 := by
    intro h0; exact hne (List.length_eq_zero.mp h0)
  have hflow : mainFlow w =
      eventsBeforeOutput w limit ++ [Event.printHeader (keywordOf w) r.Data.length] ++
        printItems 0 r.Data ++ [Event.printClosing] := by
    rw [mainFlow_decoded w limit r h]
    unfold printResults
    rw [if_neg hlen]
    simp only [List.append_assoc]
  refine ⟨hflow, ?_, ?_, ?_⟩
  · rw [hflow, List.append_assoc, List.append_assoc,
      itemBlocks_append_other _ _ (eventsBeforeOutput_no_title w limit)]
    rw [List.singleton_append, itemBlocks_cons_other _ _ (by intro n t; simp)]
    exact itemBlocks_printItems r.Data 0
  · intro e he
    rw [mainFlow_decoded w limit r h, List.mem_append] at he
    rcases he with he | he
    · exact (eventsBeforeOutput_plain w limit e he).2
    · have := printResults_isResultLine _ _ e he
      cases e <;> first | rfl | exact Bool.noConfusion this
  · rw [hflow, stdoutOf_append, stdoutOf_append, stdoutOf_append, stdoutOf_eventsBeforeOutput,
      stdoutOf_printItems]
    simp [stdoutOf, Event.stdout, numberedNonNull, List.enum]

set_option maxRecDepth 100000 in
/-- C4 at the example of the specification: the array
`[{cat gif, https://giphy.com/x}, null, {"", https://giphy.com/y}]` prints exactly two item
blocks, the second with an empty title. -/
theorem item_blocks_witness :
    DecodesTo (catRun threeEntries) 3 threeEntriesDecoded ∧
      itemBlocks (mainFlow (catRun threeEntries)) =
        [(utf8 "cat gif", utf8 "https://giphy.com/x"), ([], utf8 "https://giphy.com/y")] :=
  have hd : DecodesTo (catRun threeEntries) 3 threeEntriesDecoded :=
    ⟨⟨by decide!, by decide!, by decide!, by decide⟩, threeEntries, ⟨utf8 "200 OK", rfl⟩,
      by decide!⟩
  ⟨hd, (item_blocks_are_non_null_entries _ 3 _ hd (by decide)).2.1⟩

/-! ## C5: the empty result -/

/-- C5. For every query, when the response has status 200 and its body decodes to an empty data
sequence (as the body `{"data":[]}` does), `SearchGif` returns that empty result and no error,
and the flow then prints exactly one line, the nothing-found message naming the query: no
header, no item block, no closing line; on standard output the two prompts are followed by that
line and nothing else. -/
theorem empty_result_prints_nothing_found (w : World) (limit : Int) (r : GiphyResponse)
    (h : DecodesTo w limit r) (hempty : r.Data = []) :
    (SearchGif w.doRequest w.apiKey (keywordOf w) limit).2 = Except.ok ⟨[]⟩ ∧
      mainFlow w = eventsBeforeOutput w limit ++ [Event.printNothingFound (keywordOf w)] ∧
      stdoutOf (mainFlow w) =
        utf8 "Введіть ключове слово (наприклад, 'теніс'): " ++
          utf8 "Введіть кількість результатів: " ++
          (utf8 "\nНа жаль, за запитом '" ++ keywordOf w ++ utf8 "' нічого не знайдено.\n") := by
  refine ⟨?_, ?_, ?_⟩
  · obtain ⟨_, body, hans, hu⟩ := h
    rw [SearchGif_answered w limit body hans, hu]
    cases r
    simp only at hempty
    rw [hempty]
  · rw [mainFlow_decoded w limit r h, hempty]
    rfl
  · rw [mainFlow_decoded w limit r h, hempty, stdoutOf_append, stdoutOf_eventsBeforeOutput]
    simp [printResults, stdoutOf, Event.stdout]

set_option maxRecDepth 100000 in
/-- C5 at the example of the specification: status 200 and body `{"data":[]}`. -/
theorem empty_result_witness :
    DecodesTo (catRun emptyData) 3 ⟨[]⟩ ∧
      mainFlow (catRun emptyData) =
        eventsBeforeOutput (catRun emptyData) 3 ++
          [Event.printNothingFound (keywordOf (catRun emptyData))] :=
  have hd : DecodesTo (catRun emptyData) 3 ⟨[]⟩ :=
    ⟨⟨by decide!, by decide!, by decide!, by decide⟩, emptyData, ⟨utf8 "200 OK", rfl⟩,
      by decide!⟩
  ⟨hd, (empty_result_prints_nothing_found _ 3 _ hd rfl).2.1⟩

/-! ## C8: a body that does not decode -/

/-- C8, as the code has it. For every response with status 200 whose body `json.Unmarshal`
rejects (the body is not one JSON value, or holds a value of a JSON type that the field it is
stored into cannot hold), `SearchGif` returns the decode error of line 78 and no result, and the
flow terminates on that error having printed no header, no item block, no nothing-found line
and no closing line. -/
theorem decode_error_prints_nothing (w : World) (limit : Int) (body : GoString) (e : JsonError)
    (hin : InputsAccepted w limit) (hans : AnsweredOK w limit body)
    (hu : Unmarshal body = Except.error e) :
    (SearchGif w.doRequest w.apiKey (keywordOf w) limit).2 =
        Except.error (SearchError.decode e) ∧
      mainFlow w = eventsBeforeOutput w limit ++ [Event.fatalSearch (SearchError.decode e)] ∧
      (∀ ev ∈ mainFlow w, ev.isResultLine = false) := by
  refine ⟨?_, mainFlow_decode_error w limit body e hin hans hu, ?_⟩
  · rw [SearchGif_answered w limit body hans, hu]
  · intro ev hev
    rw [mainFlow_decode_error w limit body e hin hans hu, List.mem_append] at hev
    rcases hev with hev | hev
    · exact (eventsBeforeOutput_plain w limit ev hev).1
    · simp only [List.mem_singleton] at hev
      subst hev
      rfl

set_option maxRecDepth 100000 in
/-- C8 (as the code has it) at a concrete response: status 200 and the body `not json`. -/
theorem decode_error_witness :
    Unmarshal notJSON = Except.error JsonError.invalidSyntax ∧
      mainFlow (catRun notJSON) =
        eventsBeforeOutput (catRun notJSON) 3 ++
          [Event.fatalSearch (SearchError.decode JsonError.invalidSyntax)] :=
  ⟨by decide!,
    (decode_error_prints_nothing (catRun notJSON) 3 notJSON JsonError.invalidSyntax
      ⟨by decide!, by decide!, by decide!, by decide⟩ ⟨utf8 "200 OK", rfl⟩ (by decide!)).2.1⟩

set_option maxRecDepth 100000 in
/-- C8 as stated fails twice.  With the success status 201 and the body `not json`, the error is
the server error of line 65, not a decode error.  With status 200 and the body `{}`, which has
no `data` array, nothing fails: `SearchGif` returns an empty result and the flow prints the
nothing-found line. -/
theorem decode_error_counterexample :
    (SearchGif (answering 201 (utf8 "201 Created") notJSON) (utf8 "KEY") (utf8 "cat") 3).2 =
        Except.error (SearchError.server 201 (utf8 "201 Created")) ∧
      (SearchGif (answering 200 (utf8 "200 OK") emptyObject) (utf8 "KEY") (utf8 "cat") 3).2 =
        Except.ok ⟨[]⟩ ∧
      mainFlow (catRun emptyObject) =
        [Event.logStart, Event.promptKeyword, Event.promptCount, Event.logSearching,
          Event.callSearchGif (utf8 "KEY") (utf8 "cat") 3,
          Event.httpGet (requestURL (utf8 "KEY") (utf8 "cat") 3), Event.readBody,
          Event.closeBody, Event.printNothingFound (utf8 "cat")] := by
  decide!

/-! ## C10: counts and numbers follow the raw array -/

theorem blockNumbers_printItems (data : List (Option GiphyData)) : ∀ i,
    blockNumbers (printItems i data) =
      ((data.enumFrom i).filter (fun p => p.2.isSome)).map (fun p => p.1 + 1) := by
  induction data with
  | nil => intro i; rfl
  | cons gif rest ih =>
    intro i
    cases gif with
    | none =>
      have := ih (i + 1)
      simp only [blockNumbers] at this
      simp [printItems, blockNumbers, List.enumFrom, this]
    | some g =>
      have := ih (i + 1)
      simp only [blockNumbers] at this
      simp [printItems, blockNumbers, List.enumFrom, this]

theorem blockNumbers_append (a b : List Event) :
    blockNumbers (a ++ b) = blockNumbers a ++ blockNumbers b := by
  simp [blockNumbers]

theorem headerCounts_append (a b : List Event) :
    headerCounts (a ++ b) = headerCounts a ++ headerCounts b := by
  simp [headerCounts]

theorem blockNumbers_plain (pre : List Event) (h : ∀ e ∈ pre, e.isResultLine = false) :
    blockNumbers pre = [] := by
  induction pre with
  | nil => rfl
  | cons e pre ih =>
    have he := h e (List.mem_cons_self e pre)
    have := ih (fun x hx => h x (List.mem_cons_of_mem e hx))
    simp only [blockNumbers] at this
    cases e <;> first | (simpa [blockNumbers] using this) | exact Bool.noConfusion he

theorem headerCounts_plain (pre : List Event) (h : ∀ e ∈ pre, e.isResultLine = false) :
    headerCounts pre = [] := by
  induction pre with
  | nil => rfl
  | cons e pre ih =>
    have he := h e (List.mem_cons_self e pre)
    have := ih (fun x hx => h x (List.mem_cons_of_mem e hx))
    simp only [headerCounts] at this
    cases e <;> first | (simpa [headerCounts] using this) | exact Bool.noConfusion he

theorem headerCounts_printItems (data : List (Option GiphyData)) (i : Nat) :
    headerCounts (printItems i data) = [] := by
  have h := printItems_events data i
  generalize printItems i data = l at h
  induction l with
  | nil => rfl
  | cons e l ih =>
    have he := h e (List.mem_cons_self e l)
    have := ih (fun x hx => h x (List.mem_cons_of_mem e hx))
    simp only [headerCounts] at this
    rcases he with ⟨n, t, rfl⟩ | ⟨u, rfl⟩ <;> simpa [headerCounts] using this

theorem printItems_all_null (data : List (Option GiphyData)) (h : ∀ o ∈ data, o = none) :
    ∀ i, printItems i data = [] := by
  induction data with
  | nil => intro i; rfl
  | cons gif rest ih =>
    intro i
    have hg := h gif (List.mem_cons_self gif rest)
    subst hg
    simp [printItems, ih (fun o ho => h o (List.mem_cons_of_mem _ ho))]

theorem filter_isSome_length (data : List (Option GiphyData)) : ∀ i,
    ((data.enumFrom i).filter (fun p => p.2.isSome)).length + nullCount data = data.length := by
  induction data with
  | nil => intro i; rfl
  | cons gif rest ih =>
    intro i
    have := ih (i + 1)
    cases gif with
    | none =>
      simp only [nullCount] at this
      simp [List.enumFrom, nullCount, List.countP_cons]
      omega
    | some g =>
      simp only [nullCount] at this
      simp [List.enumFrom, nullCount, List.countP_cons]
      omega

/-- C10. In the output of a run that decodes a response, counts and numbers refer to the raw
decoded array of length `n`, null entries included: the header (printed when `n` is not 0)
carries the count `n`; the block of the entry at 0-based position `i` carries the number `i+1`,
so the printed numbers are the positions of the non-null entries plus one and skip the null
positions; the nothing-found line is printed exactly when `n = 0`; the number of printed blocks
plus the number of null entries is `n`; and a non-empty array of nulls only prints the header
with count `n` and the closing line with no item block. -/
theorem counts_follow_raw_array (w : World) (limit : Int) (r : GiphyResponse)
    (h : DecodesTo w limit r) :
    headerCounts (mainFlow w) = (if r.Data.length = 0 then [] else [r.Data.length]) ∧
      blockNumbers (mainFlow w) = (nonNullPositions r.Data).map (fun i => i + 1) ∧
      (Event.printNothingFound (keywordOf w) ∈ mainFlow w ↔ r.Data.length = 0) ∧
      (blockNumbers (mainFlow w)).length + nullCount r.Data = r.Data.length ∧
      (r.Data ≠ [] → (∀ o ∈ r.Data, o = none) →
        mainFlow w = eventsBeforeOutput w limit ++
          [Event.printHeader (keywordOf w) r.Data.length, Event.printClosing]) := by
  have hflow := mainFlow_decoded w limit r h
  have hpre := fun e he => (eventsBeforeOutput_plain w limit e he).1
  have hnum : blockNumbers (mainFlow w) =
      ((r.Data.enumFrom 0).filter (fun p => p.2.isSome)).map (fun p => p.1 + 1) := by
    rw [hflow, blockNumbers_append, blockNumbers_plain _ hpre, List.nil_append]
    unfold printResults
    split
    · rename_i h0
      rw [List.length_eq_zero.mp h0]
      rfl
    · rw [blockNumbers_append, blockNumbers_append, blockNumbers_printItems]
      simp [blockNumbers]
  refine ⟨?_, ?_, ?_, ?_, ?_⟩
  · rw [hflow, headerCounts_append, headerCounts_plain _ hpre, List.nil_append]
    unfold printResults
    split
    · rfl
    · rw [headerCounts_append, headerCounts_append, headerCounts_printItems]
      simp [headerCounts]
  · rw [hnum]
    simp [nonNullPositions, List.enum, List.map_map]
  · rw [hflow, List.mem_append]
    constructor
    · rintro (hm | hm)
      · exact absurd (hpre _ hm) (by simp [Event.isResultLine])
      · unfold printResults at hm
        split at hm
        · assumption
        · simp only [List.mem_append, List.mem_singleton, List.mem_cons, List.not_mem_nil,
            or_false] at hm
          rcases hm with (hm | hm) | hm
          · exact Event.noConfusion hm
          · rcases printItems_events _ _ _ hm with ⟨n, t, h1⟩ | ⟨u, h1⟩ <;>
              exact Event.noConfusion h1
          · exact Event.noConfusion hm
    · intro h0
      right
      unfold printResults
      rw [if_pos h0]
      exact List.mem_singleton_self _
  · rw [hnum, List.length_map]
    exact filter_isSome_length r.Data 0
  · intro hne hnull
    have hlen : ¬ r.Data.length = 0 := fun h0 => hne (List.length_eq_zero.mp h0)
    rw [hflow]
    unfold printResults
    rw [if_neg hlen, printItems_all_null r.Data hnull]
    rfl

set_option maxRecDepth 100000 in
/-- C10 at the example of the specification: the array has three entries, the second null; the
header counts 3 and the two blocks carry the numbers 1 and 3. -/
theorem counts_witness :
    headerCounts (mainFlow (catRun threeEntries)) = [3] ∧
      blockNumbers (mainFlow (catRun threeEntries)) =
        [1, 3] :=
  have hd : DecodesTo (catRun threeEntries) 3 threeEntriesDecoded :=
    ⟨⟨by decide!, by decide!, by decide!, by decide⟩, threeEntries, ⟨utf8 "200 OK", rfl⟩,
      by decide!⟩
  ⟨(counts_follow_raw_array _ 3 _ hd).1, (counts_follow_raw_array _ 3 _ hd).2.1⟩

/-! ## C6 and C7: the input gate -/

theorem printResults_not_search (query : GoString) (data : List (Option GiphyData)) :
    ∀ e ∈ printResults query data, e.isSearch = false := by
  intro e he
  have := printResults_isResultLine query data e he
  cases e <;> first | rfl | exact Bool.noConfusion this

theorem startEvents_not_search (w : World) : ∀ e ∈ startEvents w, e.isSearch = false := by
  intro e he
  rcases startEvents_plain w e he with h | h <;> subst h <;> rfl

/-- The trace of a run whose count text is rejected, when the run reads it. -/
theorem mainFlow_bad_count (w : World) (h1 : w.apiKey ≠ []) (h2 : keywordOf w ≠ [])
    (h3 : Atoi (limitStrOf w) = none ∨ ∃ l, Atoi (limitStrOf w) = some l ∧ l ≤ 0) :
    mainFlow w =
      startEvents w ++
        [Event.promptKeyword, Event.promptCount, Event.fatalBadCount (limitStrOf w)] := by
  unfold mainFlow
  rw [if_neg h1, if_neg h2]
  rcases h3 with h3 | ⟨l, h3, hl⟩
  · rw [h3]
  · rw [h3]
    simp only
    rw [if_pos hl]

/-- Every run is of one of four kinds: no API key, empty keyword, rejected count, or accepted
inputs. -/
theorem mainFlow_cases (w : World) :
    mainFlow w = startEvents w ++ [Event.fatalNoKey] ∨
      mainFlow w = startEvents w ++ [Event.promptKeyword, Event.fatalEmptyKeyword] ∨
      ((Atoi (limitStrOf w) = none ∨ ∃ l, Atoi (limitStrOf w) = some l ∧ l ≤ 0) ∧
        mainFlow w = startEvents w ++
          [Event.promptKeyword, Event.promptCount, Event.fatalBadCount (limitStrOf w)]) ∨
      ∃ limit, InputsAccepted w limit := by
  by_cases h1 : w.apiKey = []
  · left; unfold mainFlow; rw [if_pos h1]
  by_cases h2 : keywordOf w = []
  · right; left; unfold mainFlow; rw [if_neg h1, if_pos h2]
  right; right
  cases h3 : Atoi (limitStrOf w) with
  | none => exact Or.inl ⟨Or.inl rfl, mainFlow_bad_count w h1 h2 (Or.inl h3)⟩
  | some l =>
    by_cases hl : l ≤ 0
    · exact Or.inl ⟨Or.inr ⟨l, rfl, hl⟩, mainFlow_bad_count w h1 h2 (Or.inr ⟨l, h3, hl⟩)⟩
    · exact Or.inr ⟨l, h1, h2, h3, by omega⟩

/-- The events of a run whose inputs are accepted: the only call is the one of line 132. -/
theorem mainFlow_accepted_events (w : World) (limit : Int) (h : InputsAccepted w limit) :
    ∀ e ∈ mainFlow w, e.isSearch = true →
      e = Event.callSearchGif w.apiKey (keywordOf w) limit ∨
        e = Event.httpGet (requestURL w.apiKey (keywordOf w) limit) := by
  intro e he hs
  rw [mainFlow_accepted w limit h] at he
  simp only [List.mem_append, List.mem_cons, List.mem_singleton, List.not_mem_nil,
    or_false] at he
  rcases he with ((he | he) | he) | he
  · rw [startEvents_not_search w e he] at hs; exact Bool.noConfusion hs
  · rcases he with he | he | he | he
    · subst he; exact Bool.noConfusion hs
    · subst he; exact Bool.noConfusion hs
    · subst he; exact Bool.noConfusion hs
    · exact Or.inl he
  · rcases SearchGif_events _ _ _ _ e he with h1 | h1 | h1
    · exact Or.inr h1
    · subst h1; exact Bool.noConfusion hs
    · subst h1; exact Bool.noConfusion hs
  · cases hres : (SearchGif w.doRequest w.apiKey (keywordOf w) limit).2 with
    | error err =>
      rw [hres] at he
      simp only [List.mem_singleton] at he
      subst he; exact Bool.noConfusion hs
    | ok response =>
      rw [hres] at he
      rw [printResults_not_search _ _ e he] at hs; exact Bool.noConfusion hs

/-- A run that does not accept its inputs has no `SearchGif` call and no request. -/
theorem mainFlow_rejected_events (w : World)
    (h : mainFlow w = startEvents w ++ [Event.fatalNoKey] ∨
      mainFlow w = startEvents w ++ [Event.promptKeyword, Event.fatalEmptyKeyword] ∨
      mainFlow w = startEvents w ++
        [Event.promptKeyword, Event.promptCount, Event.fatalBadCount (limitStrOf w)]) :
    ∀ e ∈ mainFlow w, e.isSearch = false := by
  intro e he
  rcases h with h | h | h <;> rw [h] at he <;>
    simp only [List.mem_append, List.mem_cons, List.mem_singleton, List.not_mem_nil,
      or_false] at he
  · rcases he with he | he
    · exact startEvents_not_search w e he
    · subst he; rfl
  · rcases he with he | he | he
    · exact startEvents_not_search w e he
    · subst he; rfl
    · subst he; rfl
  · rcases he with he | he | he | he
    · exact startEvents_not_search w e he
    · subst he; rfl
    · subst he; rfl
    · subst he; rfl

/-- C6. For every run: a `SearchGif` call is made only with the API key, the trimmed keyword
and the integer `limit` that the trimmed count text parses to, and then the key is not empty,
the query is not empty and `limit >= 1`; every request goes through such a call.  When the
trimmed count text does not parse as an integer, or parses to 0 or a negative number, no
`SearchGif` call and no request is made, and the run, once the API key is set and the keyword
is not empty (so that the count text is read at all), prints the two prompts and ends with the
input error that carries the trimmed text as typed. -/
theorem count_gate (w : World) :
    (∀ apiKey query limit, Event.callSearchGif apiKey query limit ∈ mainFlow w →
        apiKey = w.apiKey ∧ query = keywordOf w ∧ Atoi (limitStrOf w) = some limit ∧
          apiKey ≠ [] ∧ query ≠ [] ∧ 1 ≤ limit) ∧
      (∀ url, Event.httpGet url ∈ mainFlow w →
        ∃ limit, Event.callSearchGif w.apiKey (keywordOf w) limit ∈ mainFlow w ∧
          url = requestURL w.apiKey (keywordOf w) limit) ∧
      ((Atoi (limitStrOf w) = none ∨ ∃ l, Atoi (limitStrOf w) = some l ∧ l ≤ 0) →
        (∀ e ∈ mainFlow w, e.isSearch = false) ∧
          (w.apiKey ≠ [] → keywordOf w ≠ [] →
            mainFlow w = startEvents w ++
              [Event.promptKeyword, Event.promptCount, Event.fatalBadCount (limitStrOf w)])) := by
  refine ⟨?_, ?_, ?_⟩
  · intro apiKey query limit hmem
    rcases mainFlow_cases w with h | h | ⟨_, h⟩ | ⟨l, h⟩
    · exact absurd (mainFlow_rejected_events w (Or.inl h) _ hmem) (by simp [Event.isSearch])
    · exact absurd (mainFlow_rejected_events w (Or.inr (Or.inl h)) _ hmem)
        (by simp [Event.isSearch])
    · exact absurd (mainFlow_rejected_events w (Or.inr (Or.inr h)) _ hmem)
        (by simp [Event.isSearch])
    · rcases mainFlow_accepted_events w l h _ hmem rfl with he | he
      · injection he with e1 e2 e3
        subst e1 e2 e3
        exact ⟨rfl, rfl, h.2.2.1, h.1, h.2.1, by have := h.2.2.2; omega⟩
      · exact Event.noConfusion he
  · intro url hmem
    rcases mainFlow_cases w with h | h | ⟨_, h⟩ | ⟨l, h⟩
    · exact absurd (mainFlow_rejected_events w (Or.inl h) _ hmem) (by simp [Event.isSearch])
    · exact absurd (mainFlow_rejected_events w (Or.inr (Or.inl h)) _ hmem)
        (by simp [Event.isSearch])
    · exact absurd (mainFlow_rejected_events w (Or.inr (Or.inr h)) _ hmem)
        (by simp [Event.isSearch])
    · refine ⟨l, ?_, ?_⟩
      · rw [mainFlow_accepted w l h]
        simp
      · rcases mainFlow_accepted_events w l h _ hmem rfl with he | he
        · exact Event.noConfusion he
        · injection he
  · intro hbad
    have hrej : mainFlow w = startEvents w ++ [Event.fatalNoKey] ∨
        mainFlow w = startEvents w ++ [Event.promptKeyword, Event.fatalEmptyKeyword] ∨
        mainFlow w = startEvents w ++
          [Event.promptKeyword, Event.promptCount, Event.fatalBadCount (limitStrOf w)] := by
      rcases mainFlow_cases w with h | h | ⟨_, h⟩ | ⟨l, h⟩
      · exact Or.inl h
      · exact Or.inr (Or.inl h)
      · exact Or.inr (Or.inr h)
      · exfalso
        rcases hbad with hb | ⟨l2, hb, hl⟩
        · rw [h.2.2.1] at hb; exact Option.noConfusion hb
        · rw [h.2.2.1] at hb
          injection hb with hb
          have := h.2.2.2
          omega
    exact ⟨mainFlow_rejected_events w hrej, fun h1 h2 => mainFlow_bad_count w h1 h2 hbad⟩

set_option maxRecDepth 100000 in
/-- C6 at two concrete runs with the API key set and the keyword `cat`.  The count text ` 0 `
is trimmed to `0`, which parses but is not positive; the count text `abc` does not parse.  Both
runs print the two prompts and end with the input error that carries the trimmed text, and
nothing is searched. -/
theorem count_gate_witness :
    (Atoi (limitStrOf zeroCountRun) = some 0 ∧ limitStrOf zeroCountRun = utf8 "0" ∧
        mainFlow zeroCountRun =
          [Event.logStart, Event.promptKeyword, Event.promptCount,
            Event.fatalBadCount (utf8 "0")]) ∧
      (Atoi (limitStrOf badCountRun) = none ∧ limitStrOf badCountRun = utf8 "abc" ∧
        mainFlow badCountRun =
          [Event.logStart, Event.promptKeyword, Event.promptCount,
            Event.fatalBadCount (utf8 "abc")]) :=
  ⟨⟨by decide!, by decide!,
      ((count_gate zeroCountRun).2.2 (Or.inr ⟨0, by decide!, by decide⟩)).2
        (by decide!) (by decide!)⟩,
    ⟨by decide!, by decide!,
      ((count_gate badCountRun).2.2 (Or.inl (by decide!))).2 (by decide!) (by decide!)⟩⟩

/-- C7, as the code has it. For every run in which the keyword line consists only of white
space (or is empty): no `SearchGif` call and no request is made, whatever the other inputs are;
and when the API key is set, the run ends with the empty-keyword input error right after the
keyword prompt. -/
theorem blank_keyword_gate (w : World) (hblank : OnlyWhitespace (keywordLine w)) :
    (∀ e ∈ mainFlow w, e.isSearch = false) ∧
      (w.apiKey ≠ [] →
        mainFlow w = startEvents w ++ [Event.promptKeyword, Event.fatalEmptyKeyword]) := by
  have hk : keywordOf w = [] := TrimSpace_OnlyWhitespace _ hblank
  have hflow : mainFlow w = startEvents w ++ [Event.fatalNoKey] ∨
      mainFlow w = startEvents w ++ [Event.promptKeyword, Event.fatalEmptyKeyword] := by
    unfold mainFlow
    by_cases h1 : w.apiKey = []
    · left; rw [if_pos h1]
    · right; rw [if_neg h1, if_pos hk]
  refine ⟨?_, ?_⟩
  · rcases hflow with h | h
    · exact mainFlow_rejected_events w (Or.inl h)
    · exact mainFlow_rejected_events w (Or.inr (Or.inl h))
  · intro h1
    unfold mainFlow
    rw [if_neg h1, if_pos hk]

set_option maxRecDepth 100000 in
/-- C7 (as the code has it) at a concrete run: the keyword line is three spaces and a line
feed. -/
theorem blank_keyword_witness :
    OnlyWhitespace (keywordLine blankKeywordRun) ∧
      mainFlow blankKeywordRun =
        startEvents blankKeywordRun ++ [Event.promptKeyword, Event.fatalEmptyKeyword] :=
  ⟨⟨[32, 32, 32, 10], by decide, by decide!⟩,
    (blank_keyword_gate blankKeywordRun ⟨[32, 32, 32, 10], by decide, by decide!⟩).2
      (by decide!)⟩

set_option maxRecDepth 100000 in
/-- C7 as stated fails: with no API key and a keyword line of three spaces, the run ends with
the configuration error of line 104, not with an input error. -/
theorem blank_keyword_counterexample :
    OnlyWhitespace (keywordLine noKeyRun) ∧
      mainFlow noKeyRun = [Event.logStart, Event.fatalNoKey] :=
  ⟨⟨[32, 32, 32, 10], by decide, by decide!⟩, by decide!⟩

end Giphy
